import Mathlib

/-!
# Verification of the py2Dmol viewer's Python data pipeline

This file gives a shallow embedding of the geometry and trajectory-store code of
`py2Dmol/viewer.py` and proves/refutes the specification claims about it.

Two layers are embedded:

* a numeric layer over `ℝ` for the pure geometry functions `best_view`, `kabsch`
  and `align_a_to_b` (viewer.py:108-207).  These call `numpy.linalg.svd`, an
  external library routine; the SVD output is therefore modelled as an explicit
  argument (`SVDOut`) together with the predicate `SVDValid` stating the
  properties a singular value decomposition guarantees.  Floating point is
  modelled by exact reals.

* a discrete store layer over `ℚ` for the `view` class state
  (`new_obj`, `add`, `_update`, `_get_data_dict`, `_process_bonds`,
  `_process_contacts`, `save_state`, `load_state`, viewer.py:263-2453).
  At this layer the two geometry routines appear only as opaque parameters
  (`alignFn`, `bestViewFn`), which is faithful: the store code treats their
  results as data.  Python's heterogeneous values (entries of bond/contact
  lists, scatter points) are modelled by small inductive value types recording
  exactly the distinctions the source tests for (`int()`/`float()`
  convertibility, `isinstance` checks, length).  Fields of the source that no
  claim touches (`pae` payload scaling, `scatter_config` validation, the
  `config` dict, file-path parsing branches, and the HTML/JS emission) are
  omitted; Jupyter side effects are reduced to an emission counter guarded by
  `_is_live` exactly as `_send_incremental_update` is.
-/

namespace Py2Dmol

/-! ## Rounding (numpy/Python `round`: banker's rounding, half to even) -/

/-- Round a rational to the nearest integer, ties to even — the behaviour of
Python's builtin `round` and of `np.round`, used by `_get_data_dict` and
`save_state`. -/
def rhe (q : ℚ) : ℤ :=
  let f := ⌊q⌋
  let frac := q - f
  if frac < 1/2 then f
  else if frac > 1/2 then f + 1
  else if f % 2 = 0 then f else f + 1

/-- `round(q, 2)`: round to two decimal places (viewer.py:342, 2307). -/
def roundQ2 (q : ℚ) : ℚ := (rhe (100 * q) : ℚ) / 100

/-- A 3-D point with rational coordinates. -/
abbrev Q3 := ℚ × ℚ × ℚ

/-- Componentwise two-decimal rounding of a point. -/
def roundP2 (p : Q3) : Q3 := (roundQ2 p.1, roundQ2 p.2.1, roundQ2 p.2.2)

/-- Mean of a list of points (`np.mean(axis=0)`), used by the overlay-mode
recentering in `add` (viewer.py:1316-1317). -/
def qmean (l : List Q3) : Q3 :=
  let n : ℚ := l.length
  ((l.map (·.1)).sum / n, (l.map (·.2.1)).sum / n, (l.map (·.2.2)).sum / n)

theorem rhe_intCast (z : ℤ) : rhe (z : ℚ) = z := by
  unfold rhe
  rw [Int.floor_intCast]
  norm_num

theorem roundQ2_idem (q : ℚ) : roundQ2 (roundQ2 q) = roundQ2 q := by
  unfold roundQ2
  have h : (100 : ℚ) * ((rhe (100 * q) : ℚ) / 100) = ((rhe (100 * q) : ℤ) : ℚ) := by
    field_simp
  rw [h, rhe_intCast]

theorem roundP2_idem (p : Q3) : roundP2 (roundP2 p) = roundP2 p := by
  unfold roundP2
  simp [roundQ2_idem]

/-! ## Store layer: value models for heterogeneous Python inputs -/

/-- A normalized color (`_normalize_color` output): `{"type": t, "value": v}`
(viewer.py:216-259).  The advanced-dict payload is represented by its
serialized text since no claim inspects it. -/
structure ColorV where
  ctype : String
  cvalue : String
deriving DecidableEq, Repr

/-- Color argument of `add`: either a raw string (mode or literal) or an
already-normalized dict (the `load_state` path, viewer.py:1341-1348). -/
inductive ColorIn where
  | cstr (s : String)
  | cnorm (v : ColorV)
deriving DecidableEq, Repr

/-- `VALID_COLOR_MODES` (viewer.py:211). -/
def validColorModes : List String :=
  ["chain", "plddt", "rainbow", "auto", "entropy", "deepmind"]

/-- `_normalize_color` on a string argument (viewer.py:254-259); the dict
branches are reached only with already-normalized input in the paths the
claims cover. -/
def normalizeColor : ColorIn → ColorV
  | .cstr s =>
      if s.toLower ∈ validColorModes then ⟨"mode", s.toLower⟩ else ⟨"literal", s⟩
  | .cnorm v => v

/-- An element of a user-supplied bond pair, modelled by whether Python's
`int()` accepts it (ints, floats and numeric strings become `bint` with the
converted value; anything raising `ValueError`/`TypeError` is `bbad`). -/
inductive BVal where
  | bint (i : ℤ)
  | bbad (tag : ℕ)
deriving DecidableEq, Repr

/-- One entry of the `bonds` argument: a list/tuple of values, or some other
object (failing the `isinstance(bond, (list, tuple))` test). -/
inductive BondEntry where
  | blist (elems : List BVal)
  | bnotlist (tag : ℕ)
deriving DecidableEq, Repr

/-- The whole `bonds` argument: a list of entries, or a non-list object. -/
inductive BondsIn where
  | blist (entries : List BondEntry)
  | bnotlist (tag : ℕ)
deriving DecidableEq, Repr

/-- Validation of one bond entry, following `_process_bonds`'s loop body
(viewer.py:1105-1117): a list of length ≥ 2 whose first two entries are
`int()`-convertible, non-negative and distinct. -/
def validBond : BondEntry → Option (ℤ × ℤ)
  | .blist (BVal.bint i :: BVal.bint j :: _) =>
      if 0 ≤ i ∧ 0 ≤ j ∧ i ≠ j then some (i, j) else none
  | _ => none

/-- `_process_bonds` (viewer.py:1086-1119): `None` for a non-list argument,
otherwise the validated entries, or `None` when none survive. -/
def processBonds : BondsIn → Option (List (ℤ × ℤ))
  | .bnotlist _ => none
  | .blist entries =>
      let validated := entries.filterMap validBond
      if validated.isEmpty then none else some validated

/-- An element of a contact entry.  `_process_contacts` never converts these
(only the 4th element is inspected, and only for `isinstance(..., str)`), so
the model keeps rationals, strings, parsed RGB dicts and opaque junk. -/
inductive CtVal where
  | cq (q : ℚ)
  | cs (s : String)
  | crgb (r g b : ℤ)
  | cother (tag : ℕ)
deriving DecidableEq, Repr

/-- One entry of the `contacts` list argument: a list of values or some other
object. -/
inductive ContactEntry where
  | clist (elems : List CtVal)
  | cnotlist (tag : ℕ)
deriving DecidableEq, Repr

/-- The whole `contacts` argument (the file-path string branch, an I/O
adapter, is out of scope). -/
inductive ContactsIn where
  | clist (entries : List ContactEntry)
  | cnotlist (tag : ℕ)
deriving DecidableEq, Repr

/-- The named-color table of `_parse_contact_color` (viewer.py:809-824).
The hex and `rgba(...)` string formats are omitted: the claims depend only on
whether parsing succeeds, and unlisted strings model the `None` branch. -/
def parseContactColor (s : String) : Option (ℤ × ℤ × ℤ) :=
  let t := s.toLower.trim
  if s = "" then none
  else if t = "red" then some (255, 0, 0)
  else if t = "green" then some (0, 255, 0)
  else if t = "blue" then some (0, 0, 255)
  else if t = "yellow" then some (255, 255, 0)
  else if t = "orange" then some (255, 165, 0)
  else if t = "purple" then some (128, 0, 128)
  else if t = "cyan" then some (0, 255, 255)
  else if t = "magenta" then some (255, 0, 255)
  else if t = "pink" then some (255, 192, 203)
  else if t = "brown" then some (165, 42, 42)
  else if t = "black" then some (0, 0, 0)
  else if t = "white" then some (255, 255, 255)
  else if t = "gray" then some (128, 128, 128)
  else if t = "grey" then some (128, 128, 128)
  else none

/-- Validation of one contact entry, following `_process_contacts`'s loop body
(viewer.py:942-963): keep lists of length ≥ 3; when a 4th element exists and
is a string, parse it as a color (replacing it, or dropping it when
unparseable); other entries are skipped with a warning. -/
def validContact : ContactEntry → Option (List CtVal)
  | .cnotlist _ => none
  | .clist elems =>
      if h : 3 ≤ elems.length then
        if hc : 4 ≤ elems.length then
          match elems.get ⟨3, by omega⟩ with
          | .cs s =>
              match parseContactColor s with
              | some (r, g, b) =>
                  some [elems.get ⟨0, by omega⟩, elems.get ⟨1, by omega⟩,
                        elems.get ⟨2, by omega⟩, .crgb r g b]
              | none =>
                  some [elems.get ⟨0, by omega⟩, elems.get ⟨1, by omega⟩,
                        elems.get ⟨2, by omega⟩]
          | _ => some elems
        else some elems
      else none

/-- `_process_contacts` on a list argument (viewer.py:939-964). -/
def processContacts : ContactsIn → Option (List (List CtVal))
  | .cnotlist _ => none
  | .clist entries =>
      let validated := entries.filterMap validContact
      if validated.isEmpty then none else some validated

/-- A scatter value as received by `add`, modelled by what the `isinstance`
tests in viewer.py:1276-1284 distinguish: a dict carrying x/y, or a
list/tuple of values; each value either converts under `float()` or raises. -/
inductive SVal where
  | snum (q : ℚ)
  | sbad (tag : ℕ)
deriving DecidableEq, Repr

/-- The `scatter` argument of `add`. -/
inductive ScatterIn where
  | sdict (x y : SVal)
  | slist (elems : List SVal)
deriving DecidableEq, Repr

/-- Step 1.5 of `add` (viewer.py:1274-1292): normalize the scatter point,
raising `ValueError` (modelled by `Except.error`) on wrong arity or
non-numeric values. -/
def normalizeScatter : ScatterIn → Except String (ℚ × ℚ)
  | .sdict x y =>
      match x, y with
      | .snum a, .snum b => .ok (a, b)
      | _, _ => .error "scatter values must be numeric"
  | .slist elems =>
      match elems with
      | [a, b] =>
          match a, b with
          | .snum a', .snum b' => .ok (a', b')
          | _, _ => .error "scatter values must be numeric"
      | _ => .error "scatter must be a pair for a single point per frame"

/-! ## Store layer: frames, objects and the viewer state -/

/-- A serialized rotation matrix (`rotation_matrix.tolist()`). -/
abbrev Mat3Q := List (List ℚ)

/-- One stored frame: the dict built by `_get_data_dict` (viewer.py:333-372)
and appended to the object's frame list, plus the frame-level `color` set by
step 8 of `add`.  Absent dict keys are `none`.  The `pae` payload and the
frame-level `name` key (always set to `None`) are omitted. -/
structure Frame where
  coords : List Q3
  plddts : Option (List ℤ)
  chains : Option (List String)
  ptypes : Option (List String)
  scatter : Option (ℚ × ℚ)
  pnames : Option (List String)
  rnums : Option (List ℤ)
  color : Option ColorV
deriving DecidableEq, Repr

/-- One object dict as created by `new_obj` (viewer.py:1146-1155) and mutated
by `add`: keys `rotation_matrix`/`center` are absent (`none`) until stored.
`scatter_config` is omitted (no claim depends on its validated payload). -/
structure Obj where
  name : String
  frames : List Frame
  contacts : Option (List (List CtVal))
  bonds : Option (List (ℤ × ℤ))
  color : Option ColorV
  rotation : Option Mat3Q
  center : Option Q3
deriving DecidableEq, Repr

/-- The mutable state of a `view` instance that the claims touch:
`self.objects`, the alias `self._current_object_data` (modelled as the index
of the object whose frame list it aliases), the alignment reference state
`self._coords`/`self._rotation_matrix`/`self._center`, the `_is_live` flag and
a counter of incremental updates whose live-guard passed
(`_send_incremental_update`, viewer.py:439-539; the nothing-new early return
and the JS payload are not modelled).  The per-call attribute fields
(`_plddts`, `_chains`, …) are overwritten by every `_update` before being
read, so they are locals of `addSingle` here. -/
structure PyState where
  objects : List Obj
  cur : Option ℕ
  acoords : Option (List Q3)
  arot : Option Mat3Q
  acenter : Option Q3
  live : Bool
  emits : ℕ
deriving DecidableEq, Repr

/-- A fresh `view` (viewer.py:312-331). -/
def PyState.fresh : PyState :=
  { objects := [], cur := none, acoords := none, arot := none,
    acenter := none, live := false, emits := 0 }

/-- Replace the element at index `i` (Python list mutation through an alias). -/
def listModify (l : List α) (i : ℕ) (f : α → α) : List α :=
  match l, i with
  | [], _ => []
  | x :: xs, 0 => f x :: xs
  | x :: xs, n + 1 => x :: listModify xs n f

/-- Mutate `self.objects[-1]`. -/
def modifyLast (l : List Obj) (f : Obj → Obj) : List Obj :=
  listModify l (l.length - 1) f

/-- `_find_object_by_name` (viewer.py:432-437), returning the index. -/
def findIdx (objs : List Obj) (nm : String) : Option ℕ :=
  objs.findIdx? (fun o => o.name = nm)

/-- `_send_incremental_update`'s live guard (viewer.py:450-451): count one
emission when `_is_live`. -/
def sendIncr (s : PyState) : PyState :=
  if s.live then { s with emits := s.emits + 1 } else s

/-- `new_obj` (viewer.py:1121-1159): reset the alignment reference state,
append a fresh object dict, point `_current_object_data` at its frame list,
and fire the live hook. -/
def newObj (s : PyState) (name : Option String) : PyState :=
  let nm := name.getD (toString s.objects.length)
  sendIncr
    { s with acoords := none, arot := none, acenter := none,
             objects := s.objects ++
               [{ name := nm, frames := [], contacts := none, bonds := none,
                  color := none, rotation := none, center := none }],
             cur := some s.objects.length }

/-- The two geometry leaves as the store layer sees them: `align_a_to_b`
(AlignmentEngine) and `best_view` (OrientationSolver) returning
`(rotation_matrix.tolist(), center)`.  Their numeric definitions live in the
real layer below; the store code only forwards their results. -/
structure Geom where
  alignFn : List Q3 → List Q3 → List Q3
  bestViewFn : List Q3 → Mat3Q × Q3

/-- The frames of `self._current_object_data` (the aliased target object). -/
def curFrames (s : PyState) : List Frame :=
  match s.cur with
  | some i => ((s.objects.get? i).map Obj.frames).getD []
  | none => []

/-- Step 1 of `add` (viewer.py:1255-1269): resolve the target object —
point `_current_object_data` at an existing object found by name, or create a
new object when the name is new (or when no objects exist yet). -/
def resolveObject (s : PyState) (name : Option String) : PyState :=
  let createNew : Bool :=
    match name with
    | some nm =>
        (findIdx s.objects nm).isNone &&
          (!s.objects.isEmpty && ((s.objects.getLast?.map Obj.name) ≠ some nm))
    | none => s.objects.isEmpty
  let s1 : PyState :=
    match name with
    | some nm =>
        match findIdx s.objects nm with
        | some i => { s with cur := some i }
        | none => s
    | none => s
  if createNew || s1.objects.isEmpty then newObj s1 name else s1

/-- `is_first_frame` (viewer.py:1271). -/
def isFirstFrame (s : PyState) : Bool :=
  match s.cur with
  | some i => ((s.objects.get? i).map (fun o => o.frames.isEmpty)).getD false
  | none => false

/-- The coordinate branch of `_update` (viewer.py:392-402): the first frame
is stored raw; later frames are aligned against `self._coords` — the
previously stored frame — when `align` is set and the shapes agree. -/
def updateCoords (g : Geom) (s : PyState) (coords : List Q3)
    (align : Bool) : List Q3 :=
  match s.acoords with
  | none => coords
  | some prev =>
      if align ∧ prev.length = coords.length then g.alignFn coords prev
      else coords

/-- The rotation/center branch of `_update` (viewer.py:393-396):
`best_view` runs exactly when there is no alignment reference yet. -/
def updateRotCen (g : Geom) (s : PyState) (coords : List Q3) :
    Option Mat3Q × Option Q3 :=
  match s.acoords with
  | none => let bv := g.bestViewFn coords; (some bv.1, some bv.2)
  | some _ => (s.arot, s.acenter)

/-- One length safety check of `_update` (viewer.py:413-430): drop the
attribute when its length disagrees with the position count. -/
def checkLen (n : ℕ) (a : Option (List α)) : Option (List α) :=
  a.bind fun l => if l.length = n then some l else none

/-- `_get_data_dict` (viewer.py:333-372) plus the step-8 color write (which
mutates the same dict after it was appended; observationally the stored frame
carries it): coordinates rounded to two decimals, pLDDTs to integers. -/
def mkFrame (stored : List Q3) (p : Option (List ℚ))
    (c t : Option (List String)) (scv : Option (ℚ × ℚ))
    (pn : Option (List String)) (rn : Option (List ℤ))
    (col : Option ColorIn) : Frame :=
  { coords := stored.map roundP2,
    plddts := p.map (fun l => l.map rhe),
    chains := c, ptypes := t, scatter := scv,
    pnames := pn, rnums := rn,
    color := col.map normalizeColor }

/-- Step 3 of `add` (viewer.py:1301-1321): on the first frame cache the
rotation and center on `self.objects[-1]`; otherwise, in overlay mode,
recompute the center over all frames of the current object plus the incoming
one and store it on `self.objects[-1]`. -/
def cacheOrRecenter (ov : Bool) (isF : Bool) (s3 : PyState)
    (rc : Option Mat3Q × Option Q3) (stored : List Q3) : PyState :=
  if isF then
    { s3 with objects := (modifyLast s3.objects
        (fun o => { o with rotation := rc.1, center := rc.2 })) }
  else if ov then
    let prevPts := (curFrames s3).flatMap Frame.coords
    let c' := qmean (prevPts ++ stored)
    { s3 with acenter := some c',
              objects := (modifyLast s3.objects
                (fun o => { o with center := some c' })) }
  else s3

/-- Step 4 of `add` (viewer.py:1324): append the frame dict through the
`_current_object_data` alias. -/
def appendFrame (s4 : PyState) (fr : Frame) : PyState :=
  match s4.cur with
  | some i => { s4 with objects := (listModify s4.objects i
      (fun o => { o with frames := o.frames ++ [fr] })) }
  | none => s4

/-- Step 6 of `add` (viewer.py:1327-1330): store processed contacts on
`self.objects[-1]` when the result is truthy. -/
def storeContacts (s5 : PyState) (contacts : Option ContactsIn) : PyState :=
  match contacts with
  | none => s5
  | some cIn =>
      match processContacts cIn with
      | some pc => { s5 with objects := (modifyLast s5.objects
          (fun o => { o with contacts := some pc })) }
      | none => s5

/-- Step 7 of `add` (viewer.py:1333-1336): store processed bonds on
`self.objects[-1]` when the result is truthy. -/
def storeBonds (s6 : PyState) (bonds : Option BondsIn) : PyState :=
  match bonds with
  | none => s6
  | some bIn =>
      match processBonds bIn with
      | some pb => { s6 with objects := (modifyLast s6.objects
          (fun o => { o with bonds := some pb })) }
      | none => s6

/-- The single-frame path of `add` (viewer.py:1251-1383), composed from the
step functions above, including the `_update` call (viewer.py:374-430) and
`_get_data_dict` (viewer.py:333-372).  `Except.error` models the
`ValueError` raised by step 1.5 on a malformed scatter argument; a raise
loses the partially mutated Python state, which the `Except` model simply
discards.  If `_current_object_data` were `None` with objects present
(unreachable from a fresh state) the source would raise `AttributeError` at
step 4; the model leaves the state unchanged there. -/
def addSingle (g : Geom) (overlay : Bool) (s : PyState) (coords : List Q3)
    (plddts : Option (List ℚ)) (chains ptypes : Option (List String))
    (scatter : Option ScatterIn) (name : Option String) (align : Bool)
    (pnames : Option (List String)) (rnums : Option (List ℤ))
    (contacts : Option ContactsIn) (bonds : Option BondsIn)
    (color : Option ColorIn) : Except String PyState :=
  let s2 := resolveObject s name
  let isF := isFirstFrame s2
  -- Step 1.5: scatter normalization (viewer.py:1274-1292)
  let scvE : Except String (Option (ℚ × ℚ)) :=
    match scatter with
    | none => .ok none
    | some si => (normalizeScatter si).map some
  match scvE with
  | .error e => .error e
  | .ok scv =>
    let stored := updateCoords g s2 coords align
    let rc := updateRotCen g s2 coords
    let n := stored.length
    let fr := mkFrame stored (checkLen n plddts) (checkLen n chains)
      (checkLen n ptypes) scv (checkLen n pnames) (checkLen n rnums) color
    let s3 : PyState :=
      { s2 with acoords := some stored, arot := rc.1, acenter := rc.2 }
    let s4 := cacheOrRecenter overlay isF s3 rc stored
    let s5 := appendFrame s4 fr
    let s6 := storeContacts s5 contacts
    let s7 := storeBonds s6 bonds
    -- Step 9: live incremental update (viewer.py:1376-1383)
    .ok (sendIncr s7)

/-- The batched path of `add` (step 0, viewer.py:1192-1249): suppress live
sends, re-invoke the single-frame path once per leading index with each
feature sliced, then restore the live flag and emit one incremental update.
`_slice` (viewer.py:1208-1219) passes a feature through unsliced when its
length differs from the batch size; that untypeable fallback is outside this
model, whose theorems restrict to the length-matching case the claim is
about.  `contacts`, `bonds` and `color` are passed unsliced to every
sub-call, as in the source. -/
def addBatched (g : Geom) (overlay : Bool) (s : PyState)
    (coordsB : List (List Q3)) (plddtsB : Option (List (List ℚ)))
    (chainsB ptypesB : Option (List (List String)))
    (scatterB : Option (List ScatterIn)) (name : Option String) (align : Bool)
    (pnamesB : Option (List (List String))) (rnumsB : Option (List (List ℤ)))
    (contacts : Option ContactsIn) (bonds : Option BondsIn)
    (color : Option ColorIn) : Except String PyState :=
  let live0 := s.live
  let s1 := if live0 then { s with live := false } else s
  let step := fun (acc : Except String PyState) (i : ℕ) =>
    acc.bind fun st =>
      addSingle g overlay st (coordsB.getD i [])
        (plddtsB.map fun l => l.getD i [])
        (chainsB.map fun l => l.getD i [])
        (ptypesB.map fun l => l.getD i [])
        (scatterB.map fun l => l.getD i (.slist []))
        name align
        (pnamesB.map fun l => l.getD i [])
        (rnumsB.map fun l => l.getD i [])
        contacts bonds color
  let r := (List.range coordsB.length).foldl step (.ok s1)
  r.map fun st => if live0 then sendIncr { st with live := true } else st

/-! ## Concrete geometry instances used by closed theorems

The store-layer theorems hold for arbitrary `alignFn`/`bestViewFn`; closed
evaluations instantiate them.  `simpleGeom`'s `bestViewFn` returns the
identity matrix and the coordinate mean — the mean is exactly what
`best_view` returns as its center (viewer.py:119). -/

def simpleGeom : Geom :=
  { alignFn := fun a _ => a,
    bestViewFn := fun c => ([[1, 0, 0], [0, 1, 0], [0, 0, 1]], qmean c) }

/-- Decidable equality of `Except` results, for closed evaluations. -/
instance exceptDecEq {ε α : Type} [DecidableEq ε] [DecidableEq α] :
    DecidableEq (Except ε α) := fun x y =>
  match x, y with
  | .ok a, .ok b =>
      if h : a = b then .isTrue (by rw [h]) else .isFalse (by simp [h])
  | .error a, .error b =>
      if h : a = b then .isTrue (by rw [h]) else .isFalse (by simp [h])
  | .ok _, .error _ => .isFalse (by simp)
  | .error _, .ok _ => .isFalse (by simp)

/-! ## Claim C5: malformed contact/bond/scatter entries -/

/-- C5 counterexample: a scatter entry of bad arity handed to `add` is not
skipped — it raises `ValueError` (viewer.py:1280-1284), aborting the call.
This refutes "no exception is raised — no such input is fatal". -/
theorem add_scatter_bad_arity_raises :
    addSingle simpleGeom false PyState.fresh [(0, 0, 0)] none none none
      (some (.slist [.snum 1, .snum 2, .snum 3])) none true none none
      none none none
      = .error "scatter must be a pair for a single point per frame" := by
  rfl

/-- C5 (amended): malformed bond entries and malformed contact entries are
skipped while the remaining entries are processed (`_process_bonds`,
`_process_contacts` are total and insensitive to dropping an invalid entry);
a malformed `scatter` argument to `add` instead raises `ValueError`, for bad
arity as well as for non-numeric values. -/
theorem malformed_entries_skipped_scatter_raises :
    (∀ pre post b, validBond b = none →
      processBonds (.blist (pre ++ b :: post)) =
        processBonds (.blist (pre ++ post)))
    ∧ (∀ pre post c, validContact c = none →
      processContacts (.clist (pre ++ c :: post)) =
        processContacts (.clist (pre ++ post)))
    ∧ (∀ g ov s coords name align elems, elems.length ≠ 2 →
      addSingle g ov s coords none none none (some (.slist elems)) name align
        none none none none none
        = .error "scatter must be a pair for a single point per frame")
    ∧ (∀ g ov s coords name align x t,
      addSingle g ov s coords none none none
        (some (.slist [.sbad t, x])) name align none none none none none
        = .error "scatter values must be numeric") := by
  refine ⟨?_, ?_, ?_, ?_⟩
  · intro pre post b hb
    simp [processBonds, List.filterMap_append, hb]
  · intro pre post c hc
    simp [processContacts, List.filterMap_append, hc]
  · intro g ov s coords name align elems helems
    have hnorm : normalizeScatter (.slist elems) =
        .error "scatter must be a pair for a single point per frame" := by
      unfold normalizeScatter
      match elems, helems with
      | [], _ => rfl
      | [_], _ => rfl
      | [_, _], h => exact absurd rfl h
      | _ :: _ :: _ :: _, _ => rfl
    unfold addSingle
    simp [hnorm, Except.map]
  · intro g ov s coords name align x t
    unfold addSingle
    simp [normalizeScatter, Except.map]

/-- C5 witness: the amended theorem applied at concrete inputs — a bond list
with one junk entry collapses to the same result without it, likewise for a
short contact entry, and both scatter shapes raise. -/
theorem malformed_entries_witness :
    processBonds (.blist [.blist [.bint 0, .bint 1], .bnotlist 7]) =
      processBonds (.blist [.blist [.bint 0, .bint 1]])
    ∧ processContacts (.clist [.clist [.cq 0, .cq 1, .cq 1], .clist [.cq 0]]) =
      processContacts (.clist [.clist [.cq 0, .cq 1, .cq 1]])
    ∧ addSingle simpleGeom false PyState.fresh [(0, 0, 0)] none none none
        (some (.slist [.snum 1])) none true none none none none none
        = .error "scatter must be a pair for a single point per frame"
    ∧ addSingle simpleGeom false PyState.fresh [(0, 0, 0)] none none none
        (some (.slist [.sbad 0, .snum 2])) none true none none none none none
        = .error "scatter values must be numeric" := by
  obtain ⟨h1, h2, h3, h4⟩ := malformed_entries_skipped_scatter_raises
  exact ⟨h1 [.blist [.bint 0, .bint 1]] [] (.bnotlist 7) (by decide),
    h2 [.clist [.cq 0, .cq 1, .cq 1]] [] (.clist [.cq 0]) (by decide),
    h3 simpleGeom false PyState.fresh [(0, 0, 0)] none true [.snum 1]
      (by decide),
    h4 simpleGeom false PyState.fresh [(0, 0, 0)] none true (.snum 2) 0⟩

/-! ## Claim C1: later frames are aligned against the previously stored frame

`_update` aligns an incoming frame against `self._coords`
(viewer.py:399-400), and `self._coords` is overwritten by every call — so
frame 3 is aligned against the stored (already aligned) frame 2, not against
the object's first frame as the claim, the spec, and the function's own
docstring (viewer.py:378, 384, 398, 1178) state. -/

/-- C1: appending three same-shape frames with `align=True` stores
`f1`, `align(f2, f1)` and `align(f3, align(f2, f1))` — the third frame is
aligned against the previously stored frame, not the first; with
`align=False` raw coordinates are stored and no failure is raised
(coordinates are rounded to two decimals on storage in both cases). -/
theorem align_chain_targets_previous_frame (g : Geom) (f1 f2 f3 : List Q3)
    (halign : ∀ a b, (g.alignFn a b).length = a.length)
    (h2 : f2.length = f1.length) (h3 : f3.length = f1.length) :
    ((addSingle g false PyState.fresh f1 none none none none none true
        none none none none none).bind fun s1 =>
      (addSingle g false s1 f2 none none none none none true
        none none none none none).bind fun s2 =>
      (addSingle g false s2 f3 none none none none none true
        none none none none none).map fun s3 =>
      s3.objects.map (fun o => o.frames.map Frame.coords))
      = .ok [[f1.map roundP2,
              (g.alignFn f2 f1).map roundP2,
              (g.alignFn f3 (g.alignFn f2 f1)).map roundP2]]
    ∧ ((addSingle g false PyState.fresh f1 none none none none none false
        none none none none none).bind fun t1 =>
      (addSingle g false t1 f2 none none none none none false
        none none none none none).map fun t2 =>
      t2.objects.map (fun o => o.frames.map Frame.coords))
      = .ok [[f1.map roundP2, f2.map roundP2]] := by
  have e1 : (g.alignFn f2 f1).length = f3.length := by
    rw [halign, h2, h3]
  have e2 : f1.length = f2.length := h2.symm
  constructor
  · simp only [addSingle, resolveObject, isFirstFrame, updateCoords, updateRotCen, checkLen, mkFrame, cacheOrRecenter, appendFrame, storeContacts, storeBonds, newObj, sendIncr, findIdx, PyState.fresh, curFrames]
    simp [e1, e2, modifyLast, listModify, Except.bind, Except.map]
  · simp only [addSingle, resolveObject, isFirstFrame, updateCoords, updateRotCen, checkLen, mkFrame, cacheOrRecenter, appendFrame, storeContacts, storeBonds, newObj, sendIncr, findIdx, PyState.fresh, curFrames]
    simp [modifyLast, listModify, Except.bind, Except.map]

/-- C1 witness: the theorem applied at a concrete aligner and concrete
frames. -/
theorem align_chain_witness :
    ((addSingle simpleGeom false PyState.fresh [(0, 0, 0)] none none none
        none none true none none none none none).bind fun s1 =>
      (addSingle simpleGeom false s1 [(1, 0, 0)] none none none none none
        true none none none none none).bind fun s2 =>
      (addSingle simpleGeom false s2 [(2, 0, 0)] none none none none none
        true none none none none none).map fun s3 =>
      s3.objects.map (fun o => o.frames.map Frame.coords))
      = .ok [[[(0, 0, 0)].map roundP2,
              (simpleGeom.alignFn [(1, 0, 0)] [(0, 0, 0)]).map roundP2,
              (simpleGeom.alignFn [(2, 0, 0)]
                (simpleGeom.alignFn [(1, 0, 0)] [(0, 0, 0)])).map roundP2]]
    ∧ ((addSingle simpleGeom false PyState.fresh [(0, 0, 0)] none none none
        none none false none none none none none).bind fun t1 =>
      (addSingle simpleGeom false t1 [(1, 0, 0)] none none none none none
        false none none none none none).map fun t2 =>
      t2.objects.map (fun o => o.frames.map Frame.coords))
      = .ok [[[(0, 0, 0)].map roundP2, [(1, 0, 0)].map roundP2]] :=
  align_chain_targets_previous_frame simpleGeom [(0, 0, 0)] [(1, 0, 0)]
    [(2, 0, 0)] (fun _ _ => rfl) rfl rfl

/-! ## Claim C4: mis-sized optional attributes are dropped in isolation -/

/-- C4: on both the first and a later frame of an object, `add` stores the
coordinates (rounded, with the frame's position count) and each optional
per-position attribute independently: an attribute whose length differs from
the position count is dropped (stored as `None`) while every correctly-sized
attribute is kept, and the append returns without raising.  pLDDTs are
rounded to integers on storage. -/
theorem attribute_isolation (g : Geom) (f1 f2 : List Q3)
    (p1 p2 : Option (List ℚ)) (c1 c2 t1 t2 n1 n2 : Option (List String))
    (r1 r2 : Option (List ℤ)) (align : Bool)
    (halign : ∀ a b, (g.alignFn a b).length = a.length) :
    ((addSingle g false PyState.fresh f1 p1 c1 t1 none none true n1 r1
        none none none).bind fun s1 =>
      (addSingle g false s1 f2 p2 c2 t2 none none align n2 r2
        none none none).map fun s2 =>
      s2.objects.map (fun o => o.frames.map fun fr =>
        (fr.coords.length, fr.plddts, fr.chains, fr.ptypes, fr.pnames,
         fr.rnums)))
      = .ok [[(f1.length,
               p1.bind fun l =>
                 if l.length = f1.length then some (l.map rhe) else none,
               c1.bind fun l => if l.length = f1.length then some l else none,
               t1.bind fun l => if l.length = f1.length then some l else none,
               n1.bind fun l => if l.length = f1.length then some l else none,
               r1.bind fun l => if l.length = f1.length then some l else none),
              (f2.length,
               p2.bind fun l =>
                 if l.length = f2.length then some (l.map rhe) else none,
               c2.bind fun l => if l.length = f2.length then some l else none,
               t2.bind fun l => if l.length = f2.length then some l else none,
               n2.bind fun l => if l.length = f2.length then some l else none,
               r2.bind fun l => if l.length = f2.length then some l else none)]]
      := by
  have hn : (if align ∧ f1.length = f2.length then g.alignFn f2 f1
      else f2).length = f2.length := by
    split
    · exact halign f2 f1
    · rfl
  simp only [addSingle, resolveObject, isFirstFrame, updateCoords, updateRotCen, checkLen, mkFrame, cacheOrRecenter, appendFrame, storeContacts, storeBonds, newObj, sendIncr, findIdx, PyState.fresh, curFrames]
  simp [modifyLast, listModify, Except.bind, Except.map, hn,
    List.length_map]

/-- C4 witness: the theorem applied with a mis-sized pLDDT list on the second
frame and a mis-sized chain list on the first; only those attributes come
back `none`. -/
theorem attribute_isolation_witness :
    ((addSingle simpleGeom false PyState.fresh [(0, 0, 0)] (some [50])
        (some ["A", "B"]) (some ["P"]) none none true (some ["CA"])
        (some [7]) none none none).bind fun s1 =>
      (addSingle simpleGeom false s1 [(1, 0, 0)] (some [60, 61])
        (some ["A"]) (some ["P"]) none none true (some ["CA"])
        (some [8]) none none none).map fun s2 =>
      s2.objects.map (fun o => o.frames.map fun fr =>
        (fr.coords.length, fr.plddts, fr.chains, fr.ptypes, fr.pnames,
         fr.rnums)))
      = .ok [[(1, some [50], none, some ["P"], some ["CA"], some [7]),
              (1, none, some ["A"], some ["P"], some ["CA"], some [8])]] := by
  have h := attribute_isolation simpleGeom [(0, 0, 0)] [(1, 0, 0)]
    (some [50]) (some [60, 61]) (some ["A", "B"]) (some ["A"]) (some ["P"])
    (some ["P"]) (some ["CA"]) (some ["CA"]) (some [7]) (some [8]) true
    (fun _ _ => rfl)
  rw [h]
  simp [rhe]

/-! ## Claim C7: immutability of the cached rotation/center -/

/-- Mutating one list element leaves any projection it preserves unchanged on
the whole list. -/
theorem listModify_map_invariant (l : List α) (i : ℕ) (f : α → α)
    (p : α → β) (h : ∀ x, p (f x) = p x) :
    (listModify l i f).map p = l.map p := by
  induction l generalizing i with
  | nil => rfl
  | cons x xs ih =>
      cases i with
      | zero => simp [listModify, h]
      | succ n => simp [listModify, ih]

/-- C7 counterexample: with overlay mode enabled, appending a second frame
recomputes the stored center over all frames (viewer.py:1305-1321) — the
cached center is modified by a plain append, refuting "no later
add/appendFrame to that object modifies them". -/
theorem overlay_append_changes_center :
    ((addSingle simpleGeom true PyState.fresh [(0, 0, 0)] none none none
        none none false none none none none none).bind fun s1 =>
      (addSingle simpleGeom true s1 [(2, 0, 0)] none none none
        none none false none none none none none).map fun s2 =>
      (s1.objects.map Obj.center, s2.objects.map Obj.center))
      = .ok ([some (0, 0, 0)], [some (1, 0, 0)]) := by
  simp only [addSingle, resolveObject, isFirstFrame, updateCoords, updateRotCen, checkLen, mkFrame, cacheOrRecenter, appendFrame, storeContacts, storeBonds, newObj, sendIncr, findIdx, PyState.fresh, curFrames]
  simp [modifyLast, listModify, Except.bind, Except.map]
  norm_num [simpleGeom, qmean, roundP2, roundQ2, rhe]

/-- C7 (amended): the rotation and center are cached once, on the object's
first frame; as long as overlay mode is disabled, an `add` addressed to an
object that already has at least one frame leaves every object's cached
`rotation_matrix` and `center` unchanged (with overlay enabled the center is
recomputed over all frames on each later append). -/
theorem rotation_center_immutable_without_overlay (g : Geom) (s : PyState)
    (coords : List Q3) (nm : String) (i : ℕ) (o : Obj) (align : Bool)
    (hfind : findIdx s.objects nm = some i)
    (hget : s.objects[i]? = some o)
    (hfr : o.frames ≠ []) :
    (addSingle g false s coords none none none none (some nm) align
        none none none none none).map
      (fun s' => s'.objects.map fun ob => (ob.rotation, ob.center))
      = .ok (s.objects.map fun ob => (ob.rotation, ob.center)) := by
  have hne : s.objects ≠ [] := by
    intro h
    rw [h] at hget
    simp at hget
  have hemp : o.frames.isEmpty = false := by
    simp [List.isEmpty_iff, hfr]
  have h1 : resolveObject s (some nm) = { s with cur := some i } := by
    simp [resolveObject, hfind, hne]
  have h2 : isFirstFrame { s with cur := some i } = false := by
    simp [isFirstFrame, hget, hemp]
  simp only [addSingle, h1, h2]
  simp only [cacheOrRecenter, appendFrame, storeContacts, storeBonds,
    sendIncr, Except.map]
  simp [apply_ite]
  exact listModify_map_invariant _ _ _ _ (fun x => rfl)

/-- The 3x3 identity as a serialized rotation matrix. -/
def idMatQ : Mat3Q := [[1, 0, 0], [0, 1, 0], [0, 0, 1]]

/-- A frame holding the single position at the origin. -/
def frameOrigin : Frame :=
  { coords := [(0, 0, 0)], plddts := none, chains := none, ptypes := none,
    scatter := none, pnames := none, rnums := none, color := none }

/-- An object "A" holding `frameOrigin`, with a cached identity rotation and
the origin as center. -/
def objA : Obj :=
  { name := "A", frames := [frameOrigin], contacts := none, bonds := none,
    color := none, rotation := some idMatQ, center := some (0, 0, 0) }

/-- A one-object viewer state holding `objA`. -/
def stateA : PyState :=
  { objects := [objA], cur := some 0, acoords := some [(0, 0, 0)],
    arot := some idMatQ, acenter := some (0, 0, 0), live := false,
    emits := 0 }

/-- C7 witness: the amended theorem applied to `stateA`; a second named
append leaves the cached rotation and center alone. -/
theorem rotation_center_immutable_witness :
    (addSingle simpleGeom false stateA [(5, 5, 5)] none none none none
        (some "A") true none none none none none).map
      (fun s' => s'.objects.map fun ob => (ob.rotation, ob.center))
      = .ok [(some idMatQ, some (0, 0, 0))] :=
  rotation_center_immutable_without_overlay simpleGeom stateA
    [(5, 5, 5)] "A" 0 objA true rfl rfl (by simp [objA, frameOrigin])

/-! ## Claim C9: side effects of a named `add` land on `objects[-1]`

Steps 3, 6 and 7 of `add` write the cached rotation/center, the contacts and
the bonds to `self.objects[-1]` (viewer.py:1303-1304, 1330, 1336) even when
the `name` argument addressed an earlier object — only the frame itself goes
through the `_current_object_data` alias to the named object. -/

/-- C9: with objects "A" and "B" present (in that order) and both empty, an
`add` addressed to "A" appends its frame to "A" but stores the contacts it
processed and the freshly computed best-view rotation/center on "B". -/
theorem named_add_stores_metadata_on_last (g : Geom) (coords : List Q3) :
    (addSingle g false (newObj (newObj PyState.fresh (some "A")) (some "B"))
        coords none none none none (some "A") true none none
        (some (.clist [.clist [.cq 0, .cq 1, .cq 1]])) none none).map
      (fun s => s.objects.map fun o =>
        (o.name, o.frames.map Frame.coords, o.contacts, o.rotation,
         o.center))
      = .ok [("A", [coords.map roundP2], none, none, none),
             ("B", [], some [[.cq 0, .cq 1, .cq 1]],
              some (g.bestViewFn coords).1, some (g.bestViewFn coords).2)]
      := by
  simp only [addSingle, resolveObject, isFirstFrame, updateCoords, updateRotCen, checkLen, mkFrame, cacheOrRecenter, appendFrame, storeContacts, storeBonds, newObj, sendIncr, findIdx, PyState.fresh, curFrames]
  simp [modifyLast, listModify, Except.map, processContacts, validContact]

/-! ## Claim C10: batched add equals sequential adds -/

/-- The store components of a viewer state: everything except the live flag
and the emission counter. -/
def strip (s : PyState) :
    List Obj × Option ℕ × Option (List Q3) × Option Mat3Q × Option Q3 :=
  (s.objects, s.cur, s.acoords, s.arot, s.acenter)

theorem strip_sendIncr (x : PyState) : strip (sendIncr x) = strip x := by
  simp [sendIncr, strip, apply_ite]

theorem resolveObject_counters (s : PyState) (nm : Option String)
    (h : s.live = false) :
    (resolveObject s nm).emits = s.emits ∧
      (resolveObject s nm).live = false := by
  cases nm with
  | none => simp [resolveObject, newObj, sendIncr, h, apply_ite]
  | some n =>
      cases hf : findIdx s.objects n with
      | none => simp [resolveObject, hf, newObj, sendIncr, h, apply_ite]
      | some j => simp [resolveObject, hf, newObj, sendIncr, h, apply_ite]

theorem cacheOrRecenter_counters (ov isF : Bool) (s : PyState)
    (rc : Option Mat3Q × Option Q3) (stored : List Q3) :
    (cacheOrRecenter ov isF s rc stored).emits = s.emits ∧
      (cacheOrRecenter ov isF s rc stored).live = s.live := by
  cases isF <;> cases ov <;> simp [cacheOrRecenter]

theorem appendFrame_counters (s : PyState) (fr : Frame) :
    (appendFrame s fr).emits = s.emits ∧ (appendFrame s fr).live = s.live := by
  cases h : s.cur <;> simp [appendFrame, h]

theorem storeContacts_counters (s : PyState) (ct : Option ContactsIn) :
    (storeContacts s ct).emits = s.emits ∧
      (storeContacts s ct).live = s.live := by
  cases ct with
  | none => simp [storeContacts]
  | some c => cases h : processContacts c <;> simp [storeContacts, h]

theorem storeBonds_counters (s : PyState) (bd : Option BondsIn) :
    (storeBonds s bd).emits = s.emits ∧ (storeBonds s bd).live = s.live := by
  cases bd with
  | none => simp [storeBonds]
  | some b => cases h : processBonds b <;> simp [storeBonds, h]

/-- With the live flag off, one `add` emits nothing and leaves the flag
off: every emission in `add`/`new_obj` goes through
`_send_incremental_update`, whose live guard fails. -/
theorem addSingle_no_emit (g : Geom) (ov : Bool) (st : PyState)
    (coords : List Q3) (p : Option (List ℚ)) (c t : Option (List String))
    (sc : Option ScatterIn) (nm : Option String) (al : Bool)
    (pn : Option (List String)) (rn : Option (List ℤ))
    (ct : Option ContactsIn) (bd : Option BondsIn) (col : Option ColorIn)
    (r : PyState) (hlive : st.live = false)
    (hok : addSingle g ov st coords p c t sc nm al pn rn ct bd col = .ok r) :
    r.emits = st.emits ∧ r.live = false := by
  have hres := resolveObject_counters st nm hlive
  have key : ∀ s7 : PyState, s7.emits = st.emits → s7.live = false →
      sendIncr s7 = r → r.emits = st.emits ∧ r.live = false := by
    intro s7 he hl hr
    rw [← hr]
    simp [sendIncr, hl, he]
  have chain : ∀ (scv : Option (ℚ × ℚ)),
      (sendIncr (storeBonds (storeContacts (appendFrame
        (cacheOrRecenter ov (isFirstFrame (resolveObject st nm))
          { resolveObject st nm with
              acoords := some (updateCoords g (resolveObject st nm) coords al),
              arot := (updateRotCen g (resolveObject st nm) coords).1,
              acenter := (updateRotCen g (resolveObject st nm) coords).2 }
          (updateRotCen g (resolveObject st nm) coords)
          (updateCoords g (resolveObject st nm) coords al))
        (mkFrame (updateCoords g (resolveObject st nm) coords al)
          (checkLen (updateCoords g (resolveObject st nm) coords al).length p)
          (checkLen (updateCoords g (resolveObject st nm) coords al).length c)
          (checkLen (updateCoords g (resolveObject st nm) coords al).length t)
          scv
          (checkLen (updateCoords g (resolveObject st nm) coords al).length pn)
          (checkLen (updateCoords g (resolveObject st nm) coords al).length rn)
          col)) ct) bd)) = r →
      r.emits = st.emits ∧ r.live = false := by
    intro scv hr
    apply key _ _ _ hr
    · rw [(storeBonds_counters _ _).1, (storeContacts_counters _ _).1,
        (appendFrame_counters _ _).1, (cacheOrRecenter_counters _ _ _ _ _).1]
      exact hres.1
    · rw [(storeBonds_counters _ _).2, (storeContacts_counters _ _).2,
        (appendFrame_counters _ _).2, (cacheOrRecenter_counters _ _ _ _ _).2]
      exact hres.2
  cases sc with
  | none =>
      simp only [addSingle, Except.ok.injEq] at hok
      exact chain none hok
  | some si =>
      cases hn : normalizeScatter si with
      | error msg => simp [addSingle, hn, Except.map] at hok
      | ok v =>
          simp only [addSingle, hn, Except.map, Except.ok.injEq] at hok
          exact chain (some v) hok

/-- An errored `Except` accumulator is absorbing for a monadic fold. -/
theorem foldl_bind_error (step : PyState → ℕ → Except String PyState)
    (l : List ℕ) (e : String) :
    l.foldl (fun (acc : Except String PyState) x => acc.bind (fun st => step st x)) (.error e)
      = .error e := by
  induction l with
  | nil => rfl
  | cons x xs ih => simpa [Except.bind] using ih

/-- Invariant preservation along a monadic fold of add steps. -/
theorem foldl_bind_invariant {P : PyState → Prop}
    (step : PyState → ℕ → Except String PyState)
    (hstep : ∀ st x r, P st → step st x = .ok r → P r) :
    ∀ (l : List ℕ) (init : PyState), P init →
      ∀ r, l.foldl (fun (acc : Except String PyState) x => acc.bind (fun st => step st x)) (.ok init)
        = .ok r → P r := by
  intro l
  induction l with
  | nil =>
      intro init hinit r hr
      simp at hr
      rwa [← hr]
  | cons x xs ih =>
      intro init hinit r hr
      simp only [List.foldl_cons] at hr
      have hb : (Except.ok init).bind (fun st => step st x)
          = step init x := rfl
      rw [hb] at hr
      cases hs : step init x with
      | error e =>
          rw [hs, foldl_bind_error] at hr
          exact absurd hr (by simp)
      | ok st' =>
          rw [hs] at hr
          exact ih st' (hstep init x st' hinit hs) r hr

/-- C10: a batched `add` (coordinates of shape `(B, N, 3)`, per-frame
attributes as length-`B` sequences) has the same store effect — objects,
frames, current-object pointer and alignment state — as the corresponding
sequence of `B` single `add` calls with the sliced inputs (run on a viewer
whose live flag is off, which does not change the store effect), and when
the viewer is live it emits exactly one incremental update, at the end of
the batch. -/
theorem batched_add_equivalence (g : Geom) (ov : Bool) (s : PyState)
    (coordsB : List (List Q3)) (pB : Option (List (List ℚ)))
    (cB tB : Option (List (List String))) (scB : Option (List ScatterIn))
    (nm : Option String) (al : Bool) (pnB : Option (List (List String)))
    (rnB : Option (List (List ℤ))) (ct : Option ContactsIn)
    (bd : Option BondsIn) (col : Option ColorIn) :
    ((addBatched g ov s coordsB pB cB tB scB nm al pnB rnB ct bd col).map
        strip
      = (((List.range coordsB.length).foldl
          (fun (acc : Except String PyState) i => acc.bind fun st =>
            addSingle g ov st (coordsB.getD i [])
              (pB.map fun l => l.getD i [])
              (cB.map fun l => l.getD i [])
              (tB.map fun l => l.getD i [])
              (scB.map fun l => l.getD i (.slist []))
              nm al
              (pnB.map fun l => l.getD i [])
              (rnB.map fun l => l.getD i [])
              ct bd col)
          (.ok { s with live := false })).map strip))
    ∧ (s.live = true → ∀ r,
        addBatched g ov s coordsB pB cB tB scB nm al pnB rnB ct bd col
          = .ok r →
        r.emits = s.emits + 1 ∧ r.live = true) := by
  have map_fix_strip : ∀ (E : Except String PyState) (b : Bool),
      (E.map (fun st => if b then sendIncr { st with live := true }
        else st)).map strip = E.map strip := by
    intro E b
    cases E <;> cases b <;> simp [Except.map, sendIncr, strip, apply_ite]
  obtain ⟨obs, cur, ac, ar, ace, lv, em⟩ := s
  constructor
  · cases lv with
    | false => exact map_fix_strip _ _
    | true => exact map_fix_strip _ _
  · intro hlv r hok
    simp only at hlv
    subst hlv
    have hok2 : (((List.range coordsB.length).foldl
        (fun (acc : Except String PyState) i => acc.bind fun st =>
          addSingle g ov st (coordsB.getD i [])
            (pB.map fun l => l.getD i [])
            (cB.map fun l => l.getD i [])
            (tB.map fun l => l.getD i [])
            (scB.map fun l => l.getD i (.slist []))
            nm al
            (pnB.map fun l => l.getD i [])
            (rnB.map fun l => l.getD i [])
            ct bd col)
        (.ok ⟨obs, cur, ac, ar, ace, false, em⟩)).map
          (fun st => sendIncr { st with live := true })) = .ok r := hok
    cases hE : (List.range coordsB.length).foldl
        (fun (acc : Except String PyState) i => acc.bind fun st =>
          addSingle g ov st (coordsB.getD i [])
            (pB.map fun l => l.getD i [])
            (cB.map fun l => l.getD i [])
            (tB.map fun l => l.getD i [])
            (scB.map fun l => l.getD i (.slist []))
            nm al
            (pnB.map fun l => l.getD i [])
            (rnB.map fun l => l.getD i [])
            ct bd col)
        (.ok (⟨obs, cur, ac, ar, ace, false, em⟩ : PyState)) with
    | error e =>
        rw [hE] at hok2
        simp [Except.map] at hok2
    | ok st =>
        have hinv : st.emits = em ∧ st.live = false := by
          refine foldl_bind_invariant
            (P := fun st => st.emits = em ∧ st.live = false)
            (fun st i =>
              addSingle g ov st (coordsB.getD i [])
                (pB.map fun l => l.getD i [])
                (cB.map fun l => l.getD i [])
                (tB.map fun l => l.getD i [])
                (scB.map fun l => l.getD i (.slist []))
                nm al
                (pnB.map fun l => l.getD i [])
                (rnB.map fun l => l.getD i [])
                ct bd col)
            ?_ (List.range coordsB.length)
            ⟨obs, cur, ac, ar, ace, false, em⟩ ⟨rfl, rfl⟩ st hE
          intro st' x r' hP hok'
          have h5 := addSingle_no_emit g ov st' (coordsB.getD x [])
            (pB.map fun l => l.getD x []) (cB.map fun l => l.getD x [])
            (tB.map fun l => l.getD x [])
            (scB.map fun l => l.getD x (.slist [])) nm al
            (pnB.map fun l => l.getD x []) (rnB.map fun l => l.getD x [])
            ct bd col r' hP.2 hok'
          exact ⟨h5.1.trans hP.1, h5.2⟩
        rw [hE] at hok2
        simp only [Except.map, Except.ok.injEq] at hok2
        rw [← hok2]
        simp [sendIncr, hinv.1]

/-- The frame holding the single position `(1, 0, 0)`. -/
def frameX1 : Frame :=
  { coords := [(1, 0, 0)], plddts := none, chains := none, ptypes := none,
    scatter := none, pnames := none, rnums := none, color := none }

/-- The object produced by the batched witness run. -/
def batchedObj : Obj :=
  { name := "0", frames := [frameOrigin, frameX1], contacts := none,
    bonds := none, color := none, rotation := some idMatQ,
    center := some (0, 0, 0) }

/-- The state produced by the batched witness run: one object holding the
two sliced frames, with one emission recorded at the end of the batch. -/
def batchedResult : PyState :=
  { objects := [batchedObj], cur := some 0, acoords := some [(1, 0, 0)],
    arot := some idMatQ, acenter := some (0, 0, 0), live := true,
    emits := 1 }

/-- C10 witness: a concrete two-frame batch on a live viewer produces
`batchedResult`, and the theorem applied there certifies the single
end-of-batch emission. -/
theorem batched_add_witness :
    addBatched simpleGeom false { PyState.fresh with live := true }
      [[(0, 0, 0)], [(1, 0, 0)]] none none none none none true none none
      none none none = .ok batchedResult
    ∧ batchedResult.emits = 0 + 1 ∧ batchedResult.live = true := by
  have heval : addBatched simpleGeom false { PyState.fresh with live := true }
      [[(0, 0, 0)], [(1, 0, 0)]] none none none none none true none none
      none none none = .ok batchedResult := by
    simp only [addBatched, addSingle, resolveObject, isFirstFrame, updateCoords, updateRotCen, checkLen, mkFrame, cacheOrRecenter, appendFrame, storeContacts, storeBonds, newObj, sendIncr, findIdx, PyState.fresh, curFrames]
    simp [simpleGeom, batchedResult, batchedObj, frameOrigin, frameX1,
      idMatQ, List.range_succ, Except.map, Except.bind, modifyLast,
      listModify]
    norm_num [qmean, roundP2, roundQ2, rhe]
    rfl
  refine ⟨heval, ?_⟩
  exact (batched_add_equivalence simpleGeom false
    { PyState.fresh with live := true } [[(0, 0, 0)], [(1, 0, 0)]] none none
    none none none true none none none none none).2 rfl batchedResult heval

/-! ## Claim C8: persisted-session save/restore (`save_state`/`load_state`)

`save_state` (viewer.py:2284-2361) serializes each object's frames (rounding
coordinates to two decimals and pLDDTs to integers), hoists the fields
`chains`/`position_types`/`bonds` to the object level when identical across
frames (`_detect_redundant_fields`, viewer.py:2250-2282; frame payloads never
carry `bonds`, so that candidate never fires), and copies object-level
contacts/bonds when truthy.  The object-level `color`, the cached
`rotation_matrix` and the `center` are NOT serialized.  `load_state`
(viewer.py:2363-2453) clears the store and replays every frame through
`add(align=False)`, re-expanding hoisted fields. -/

/-- One object of the persisted-session document. -/
structure SavedObj where
  name : String
  frames : List Frame
  objChains : Option (List String)
  objPtypes : Option (List String)
  contacts : Option (List (List CtVal))
  bonds : Option (List (ℤ × ℤ))
deriving DecidableEq, Repr

/-- `_detect_redundant_fields` for one field (viewer.py:2255-2280): skip a
field present in no frame; otherwise take the first present value and hoist
it when every frame either equals it or lacks the field. -/
def detectRedundant (frames : List Frame)
    (get : Frame → Option (List String)) : Option (List String) :=
  if frames.all (fun f => (get f).isNone) then none
  else
    match frames.findSome? get with
    | none => none
    | some v =>
        if ∀ f ∈ frames, get f = some v ∨ get f = none then some v else none

/-- Per-frame serialization of `save_state` (viewer.py:2303-2318):
coordinates re-rounded to two decimals, pLDDTs re-rounded to integers,
other fields copied. -/
def saveFrame (f : Frame) : Frame :=
  { f with coords := f.coords.map roundP2,
           plddts := f.plddts.map (fun l => l.map (fun (z : ℤ) => rhe (z : ℚ))) }

/-- Deletion of a hoisted field from one frame (viewer.py:2324-2327). -/
def elideFrame (redC redP : Option (List String)) (f : Frame) : Frame :=
  let f1 := match redC with
    | some v => if f.chains = some v then { f with chains := none } else f
    | none => f
  match redP with
  | some v => if f1.ptypes = some v then { f1 with ptypes := none } else f1
  | none => f1

/-- Per-object serialization of `save_state` (viewer.py:2300-2347): round
the frames, hoist redundant `chains`/`position_types` (deleting them from
the frames where they equal the hoisted value), and keep truthy
object-level contacts and bonds.  The object's `color`, `rotation_matrix`
and `center` are dropped. -/
def saveObj (o : Obj) : SavedObj :=
  let frames1 := o.frames.map saveFrame
  let redC := detectRedundant frames1 Frame.chains
  let redP := detectRedundant frames1 Frame.ptypes
  { name := o.name, frames := frames1.map (elideFrame redC redP),
    objChains := redC, objPtypes := redP,
    contacts := o.contacts.bind (fun l => if l.isEmpty then none else some l),
    bonds := o.bonds.bind (fun l => if l.isEmpty then none else some l) }

/-- `save_state`'s object list (the `config`/`version`/`current_object`
envelope carries no claim-relevant data). -/
def saveState (objs : List Obj) : List SavedObj := objs.map saveObj

/-- One frame replay of `load_state` (viewer.py:2397-2430): skip frames with
no coordinates, expand hoisted fields (frame-level data wins), drop empty
pLDDT lists, and hand everything to `add` with `align=False` and no name.
The error branch is unreachable (a stored scatter is a numeric pair) and
keeps the state, where the source would propagate the exception. -/
def loadFrame (g : Geom) (ov : Bool) (od : SavedObj) (acc : PyState)
    (f : Frame) : PyState :=
  if f.coords.isEmpty then acc
  else
    let chains := match f.chains with
      | some v => some v
      | none => od.objChains
    let ptypes := match f.ptypes with
      | some v => some v
      | none => od.objPtypes
    let plddts := f.plddts.bind (fun l =>
      if l.isEmpty then none else some (l.map (fun (z : ℤ) => (z : ℚ))))
    match addSingle g ov acc f.coords plddts chains ptypes
        (f.scatter.map (fun p => ScatterIn.slist [.snum p.1, .snum p.2]))
        none false f.pnames f.rnums none none
        (f.color.map ColorIn.cnorm) with
    | .ok acc' => acc'
    | .error _ => acc

/-- One object replay of `load_state` (viewer.py:2386-2444): skip objects
with falsy names or no frames, create the object, replay its frames, then
restore object-level contacts and bonds. -/
def loadObj (g : Geom) (ov : Bool) (st : PyState) (od : SavedObj) : PyState :=
  if od.name = "" ∨ od.frames.isEmpty then st
  else
    let st1 := newObj st (some od.name)
    let st2 := od.frames.foldl (loadFrame g ov od) st1
    let st3 := match od.contacts with
      | some c => { st2 with objects := (modifyLast st2.objects
          (fun ob => { ob with contacts := some c })) }
      | none => st2
    match od.bonds with
    | some b => { st3 with objects := (modifyLast st3.objects
        (fun ob => { ob with bonds := some b })) }
    | none => st3

/-- `load_state` (viewer.py:2363-2453): clear the store, replay each saved
object. -/
def loadState (g : Geom) (ov : Bool) (s : PyState)
    (doc : List SavedObj) : PyState :=
  doc.foldl (loadObj g ov) { s with objects := [], cur := none }

/-- An object with two frames both carrying identical `position_names`. -/
def pnObj : Obj :=
  { name := "A",
    frames := [{ frameOrigin with pnames := some ["X"] },
               { frameOrigin with pnames := some ["X"] }],
    contacts := none, bonds := none, color := none,
    rotation := some idMatQ, center := some (0, 0, 0) }

/-- C8 counterexample: `position_names` is identical across both frames of
`pnObj`, yet `save_state` leaves it on every frame —
`_detect_redundant_fields` only ever hoists `chains`, `position_types` and
`bonds` (viewer.py:2259), so "hoists every field whose value is identical
across all of an object's frames" is false. -/
theorem save_does_not_hoist_position_names :
    (saveState [pnObj]).map (fun od => od.frames.map Frame.pnames)
      = [[some ["X"], some ["X"]]] := by
  simp [saveState, saveObj, elideFrame, saveFrame, detectRedundant,
    pnObj, frameOrigin, List.findSome?]

/-- The components of an object that survive a save/load round trip. -/
def objCore (o : Obj) : String × List Frame ×
    Option (List (List CtVal)) × Option (List (ℤ × ℤ)) :=
  (o.name, o.frames, o.contacts, o.bonds)

theorem listModify_append_last (pre : List α) (x : α) (f : α → α) :
    listModify (pre ++ [x]) pre.length f = pre ++ [f x] := by
  induction pre with
  | nil => rfl
  | cons y ys ih => simp [listModify, ih]

theorem modifyLast_append (pre : List Obj) (x : Obj) (f : Obj → Obj) :
    modifyLast (pre ++ [x]) f = pre ++ [f x] := by
  have h : (pre ++ [x]).length - 1 = pre.length := by simp
  rw [modifyLast, h, listModify_append_last]

theorem sendIncr_objects (x : PyState) : (sendIncr x).objects = x.objects := by
  simp [sendIncr, apply_ite]

theorem sendIncr_cur (x : PyState) : (sendIncr x).cur = x.cur := by
  simp [sendIncr, apply_ite]

theorem storeContacts_none (x : PyState) : storeContacts x none = x := rfl

theorem storeBonds_none (x : PyState) : storeBonds x none = x := rfl

theorem appendFrame_objects (x : PyState) (i : ℕ) (fr : Frame)
    (h : x.cur = some i) :
    (appendFrame x fr).objects = listModify x.objects i
      (fun o => { o with frames := o.frames ++ [fr] }) := by
  simp [appendFrame, h]

theorem appendFrame_cur (x : PyState) (fr : Frame) :
    (appendFrame x fr).cur = x.cur := by
  cases h : x.cur <;> simp [appendFrame, h]

theorem cacheOrRecenter_cur (ov isF : Bool) (s : PyState)
    (rc : Option Mat3Q × Option Q3) (stored : List Q3) :
    (cacheOrRecenter ov isF s rc stored).cur = s.cur := by
  cases isF <;> cases ov <;> simp [cacheOrRecenter]

theorem cacheOrRecenter_objects (ov isF : Bool) (s : PyState)
    (rc : Option Mat3Q × Option Q3) (stored : List Q3) (pre : List Obj)
    (ob : Obj) (h : s.objects = pre ++ [ob]) :
    ∃ r c, (cacheOrRecenter ov isF s rc stored).objects
      = pre ++ [{ ob with rotation := r, center := c }] := by
  cases isF with
  | true =>
      refine ⟨rc.1, rc.2, ?_⟩
      simp [cacheOrRecenter, h, modifyLast_append]
  | false =>
      cases ov with
      | true =>
          refine ⟨ob.rotation,
            some (qmean ((curFrames s).flatMap Frame.coords ++ stored)), ?_⟩
          simp [cacheOrRecenter, h, modifyLast_append]
      | false =>
          exact ⟨ob.rotation, ob.center, by simp [cacheOrRecenter, h]⟩

/-- The load-time re-expansion of hoisted fields (viewer.py:2406-2407):
frame-level data wins over the object-level default. -/
def expandFrame (od : SavedObj) (f : Frame) : Frame :=
  { f with
    chains := match f.chains with
      | some v => some v
      | none => od.objChains,
    ptypes := match f.ptypes with
      | some v => some v
      | none => od.objPtypes }

/-- Well-formedness of one frame as `add` produces it: nonempty rounded
coordinates and correctly sized, nonempty optional attributes. -/
def FrameWF (f : Frame) : Prop :=
  f.coords ≠ [] ∧ f.coords.map roundP2 = f.coords ∧
  (∀ l, f.plddts = some l → l ≠ [] ∧ l.length = f.coords.length) ∧
  (∀ l, f.chains = some l → l.length = f.coords.length) ∧
  (∀ l, f.ptypes = some l → l.length = f.coords.length) ∧
  (∀ l, f.pnames = some l → l.length = f.coords.length) ∧
  (∀ l, f.rnums = some l → l.length = f.coords.length)

/-- What `load_state`'s replay needs of one saved frame. -/
def LoadWF (od : SavedObj) (f : Frame) : Prop :=
  f.coords ≠ [] ∧ f.coords.map roundP2 = f.coords ∧
  (∀ l, f.plddts = some l → l ≠ [] ∧ l.length = f.coords.length) ∧
  (∀ l, (expandFrame od f).chains = some l →
    l.length = f.coords.length) ∧
  (∀ l, (expandFrame od f).ptypes = some l →
    l.length = f.coords.length) ∧
  (∀ l, f.pnames = some l → l.length = f.coords.length) ∧
  (∀ l, f.rnums = some l → l.length = f.coords.length)

/-- Well-formedness of an object as the `add` pipeline leaves it; the
uniform-presence conditions on `chains`/`position_types` exclude the
mixed-presence objects whose hoisting is not inverted by `load_state`. -/
def ObjWF (o : Obj) : Prop :=
  o.name ≠ "" ∧ o.frames ≠ [] ∧ (∀ f ∈ o.frames, FrameWF f) ∧
  ((∀ f ∈ o.frames, f.chains = none) ∨ (∀ f ∈ o.frames, f.chains ≠ none)) ∧
  ((∀ f ∈ o.frames, f.ptypes = none) ∨ (∀ f ∈ o.frames, f.ptypes ≠ none)) ∧
  o.contacts ≠ some [] ∧ o.bonds ≠ some []

theorem map_rhe_intCast (l : List ℤ) :
    l.map (fun (z : ℤ) => rhe (z : ℚ)) = l := by
  induction l with
  | nil => rfl
  | cons x xs ih => simp [rhe_intCast, ih]

/-- Serialization is the identity on well-formed frames: their coordinates
are already rounded and their pLDDTs already integral. -/
theorem saveFrame_id (f : Frame) (h : FrameWF f) : saveFrame f = f := by
  obtain ⟨-, hround, -, -⟩ := h
  obtain ⟨co, pl, ch, pt, sc, pn, rn, cl⟩ := f
  simp only [FrameWF] at hround
  cases pl with
  | none => simp [saveFrame, hround]
  | some l => simp [saveFrame, hround, map_rhe_intCast]

theorem detectRedundant_of_all_none (frames : List Frame)
    (get : Frame → Option (List String))
    (h : ∀ f ∈ frames, get f = none) :
    detectRedundant frames get = none := by
  unfold detectRedundant
  have : frames.all (fun f => (get f).isNone) = true := by
    simp [List.all_eq_true]
    intro f hf
    simp [h f hf]
  simp [this]

theorem detectRedundant_spec (frames : List Frame)
    (get : Frame → Option (List String)) (v : List String)
    (h : detectRedundant frames get = some v) :
    ∀ f ∈ frames, get f = some v ∨ get f = none := by
  unfold detectRedundant at h
  split at h
  · exact absurd h (by simp)
  · split at h
    · exact absurd h (by simp)
    · split at h
      · rename_i hall
        simp only [Option.some.injEq] at h
        subst h
        exact hall
      · exact absurd h (by simp)

theorem checkLen_eq_self (n : ℕ) (a : Option (List α))
    (h : ∀ l, a = some l → l.length = n) : checkLen n a = a := by
  cases ha : a with
  | none => rfl
  | some l => simp [checkLen, h l ha]

/-- Evaluation of `add` in the shape `load_state` uses it: no name, no
contacts, no bonds, a scatter argument that normalizes cleanly, and a
non-empty object list. -/
theorem addSingle_noname (g : Geom) (ov : Bool) (st : PyState)
    (coords : List Q3) (p : Option (List ℚ)) (c t : Option (List String))
    (sc : Option ScatterIn) (al : Bool) (pn : Option (List String))
    (rn : Option (List ℤ)) (col : Option ColorIn) (scv : Option (ℚ × ℚ))
    (hne : st.objects.isEmpty = false)
    (hsc : (match sc with
      | none => Except.ok none
      | some si => (normalizeScatter si).map some)
      = Except.ok scv) :
    addSingle g ov st coords p c t sc none al pn rn none none col
      = .ok (sendIncr (appendFrame
          (cacheOrRecenter ov (isFirstFrame st)
            { st with acoords := some (updateCoords g st coords al),
                      arot := (updateRotCen g st coords).1,
                      acenter := (updateRotCen g st coords).2 }
            (updateRotCen g st coords) (updateCoords g st coords al))
          (mkFrame (updateCoords g st coords al)
            (checkLen (updateCoords g st coords al).length p)
            (checkLen (updateCoords g st coords al).length c)
            (checkLen (updateCoords g st coords al).length t)
            scv
            (checkLen (updateCoords g st coords al).length pn)
            (checkLen (updateCoords g st coords al).length rn)
            col))) := by
  have h1 : resolveObject st none = st := by
    simp [resolveObject, hne]
  simp only [addSingle, h1, hsc, storeContacts_none, storeBonds_none]

/-- Replaying one well-formed saved frame appends exactly its hoist-expanded
form to the trailing object, leaving names, contacts and bonds alone and
keeping the current-object pointer. -/
theorem loadFrame_step (g : Geom) (ov : Bool) (od : SavedObj) (st : PyState)
    (pre : List Obj) (ob : Obj) (f : Frame)
    (hobj : st.objects = pre ++ [ob])
    (hcur : st.cur = some pre.length)
    (hwf : LoadWF od f) :
    ∃ r c, (loadFrame g ov od st f).objects
        = pre ++ [({ ob with
            frames := ob.frames ++ [expandFrame od f],
            rotation := r, center := c })]
      ∧ (loadFrame g ov od st f).cur = some pre.length := by
  obtain ⟨hc0, hround, hp, hch, hpt, hpn, hrn⟩ := hwf
  have hne : st.objects.isEmpty = false := by
    simp [hobj]
  have hcoords : f.coords.isEmpty = false := by
    simp [List.isEmpty_iff, hc0]
  have h1 : resolveObject st none = st := by
    simp [resolveObject, hne]
  have hstored : updateCoords g st f.coords false = f.coords := by
    cases h : st.acoords with
    | none => simp [updateCoords, h]
    | some prev => simp [updateCoords, h]
  have hplddts : (checkLen f.coords.length
      (f.plddts.bind (fun l => if l.isEmpty then none
        else some (l.map (fun (z : ℤ) => (z : ℚ)))))).map
          (fun l => l.map rhe) = f.plddts := by
    cases hpl : f.plddts with
    | none => rfl
    | some l =>
        obtain ⟨hl0, hln⟩ := hp l hpl
        have hle : l.isEmpty = false := by simp [List.isEmpty_iff, hl0]
        have e1 : (some l).bind (fun l => if l.isEmpty then none
            else some (l.map (fun (z : ℤ) => (z : ℚ))))
            = some (l.map (fun (z : ℤ) => (z : ℚ))) := by
          simp [hl0]
        have e2 : checkLen f.coords.length
            (some (l.map (fun (z : ℤ) => (z : ℚ))))
            = some (l.map (fun (z : ℤ) => (z : ℚ))) := by
          simp [checkLen, hln]
        rw [e1, e2]
        have h9 := map_rhe_intCast l
        simpa [List.map_map, Function.comp] using h9
  have hchains : checkLen f.coords.length
      (match f.chains with | some v => some v | none => od.objChains)
      = (expandFrame od f).chains := by
    apply checkLen_eq_self
    intro l hl
    exact hch l hl
  have hptypes : checkLen f.coords.length
      (match f.ptypes with | some v => some v | none => od.objPtypes)
      = (expandFrame od f).ptypes := by
    apply checkLen_eq_self
    intro l hl
    exact hpt l hl
  have hpnames : checkLen f.coords.length f.pnames = f.pnames :=
    checkLen_eq_self _ _ hpn
  have hrnums : checkLen f.coords.length f.rnums = f.rnums :=
    checkLen_eq_self _ _ hrn
  have hcolor : (f.color.map ColorIn.cnorm).map normalizeColor = f.color := by
    cases f.color <;> simp [normalizeColor]
  -- the frame actually appended is the hoist-expanded saved frame
  have hscv : ∀ scv : Option (ℚ × ℚ), scv = f.scatter →
      mkFrame f.coords
        (checkLen f.coords.length
          (f.plddts.bind (fun l => if l.isEmpty then none
            else some (l.map (fun (z : ℤ) => (z : ℚ))))))
        (checkLen f.coords.length
          (match f.chains with | some v => some v | none => od.objChains))
        (checkLen f.coords.length
          (match f.ptypes with | some v => some v | none => od.objPtypes))
        scv
        (checkLen f.coords.length f.pnames)
        (checkLen f.coords.length f.rnums)
        (f.color.map ColorIn.cnorm)
      = expandFrame od f := by
    intro scv hsc
    unfold mkFrame expandFrame
    simp only [hround, hplddts, hchains, hptypes, hpnames, hrnums, hcolor,
      hsc]
    rfl
  have hscE : (match (f.scatter.map (fun pr =>
      ScatterIn.slist [.snum pr.1, .snum pr.2])) with
      | none => Except.ok none
      | some si => (normalizeScatter si).map some)
      = Except.ok f.scatter := by
    cases hs : f.scatter with
    | none => rfl
    | some pr => rfl
  have hadd := addSingle_noname g ov st f.coords
    (f.plddts.bind (fun l => if l.isEmpty then none
      else some (l.map (fun (z : ℤ) => (z : ℚ)))))
    (match f.chains with | some v => some v | none => od.objChains)
    (match f.ptypes with | some v => some v | none => od.objPtypes)
    (f.scatter.map (fun pr => ScatterIn.slist [.snum pr.1, .snum pr.2]))
    false f.pnames f.rnums (f.color.map ColorIn.cnorm) f.scatter hne hscE
  rw [hstored] at hadd
  rw [hscv f.scatter rfl] at hadd
  obtain ⟨r, c, h4⟩ := cacheOrRecenter_objects ov (isFirstFrame st)
    { st with acoords := some f.coords,
              arot := (updateRotCen g st f.coords).1,
              acenter := (updateRotCen g st f.coords).2 }
    (updateRotCen g st f.coords) f.coords pre ob hobj
  have hcur3 : (cacheOrRecenter ov (isFirstFrame st)
      { st with acoords := some f.coords,
                arot := (updateRotCen g st f.coords).1,
                acenter := (updateRotCen g st f.coords).2 }
      (updateRotCen g st f.coords) f.coords).cur = some pre.length :=
    (cacheOrRecenter_cur _ _ _ _ _).trans hcur
  refine ⟨r, c, ?_, ?_⟩
  · simp only [loadFrame, hcoords, Bool.false_eq_true, if_false, hadd]
    rw [sendIncr_objects, appendFrame_objects _ pre.length _ hcur3, h4,
      listModify_append_last]
  · simp only [loadFrame, hcoords, Bool.false_eq_true, if_false, hadd]
    rw [sendIncr_cur, appendFrame_cur, hcur3]

/-- Replaying a list of well-formed saved frames appends their expansions in
order. -/
theorem loadFrames_fold (g : Geom) (ov : Bool) (od : SavedObj) :
    ∀ (fl : List Frame) (st : PyState) (pre : List Obj) (ob : Obj),
    st.objects = pre ++ [ob] → st.cur = some pre.length →
    (∀ f ∈ fl, LoadWF od f) →
    ∃ r c, (fl.foldl (loadFrame g ov od) st).objects
        = pre ++ [({ ob with
            frames := ob.frames ++ fl.map (expandFrame od),
            rotation := r, center := c })]
      ∧ (fl.foldl (loadFrame g ov od) st).cur = some pre.length := by
  intro fl
  induction fl with
  | nil =>
      intro st pre ob h1 h2 h3
      exact ⟨ob.rotation, ob.center, by simpa using h1, h2⟩
  | cons f fs ih =>
      intro st pre ob h1 h2 h3
      obtain ⟨r1, c1, hA, hB⟩ := loadFrame_step g ov od st pre ob f h1 h2
        (h3 f (by simp))
      obtain ⟨r2, c2, hC, hD⟩ := ih (loadFrame g ov od st f) pre _ hA hB
        (fun f' hf' => h3 f' (by simp [hf']))
      refine ⟨r2, c2, ?_, by simpa using hD⟩
      simp only [List.foldl_cons]
      simpa [List.append_assoc] using hC

/-- Hoist-then-expand is the identity on frames whose hoist-relevant fields
either were not hoisted or match the hoisted value. -/
theorem expand_elideFrame (od : SavedObj) (f : Frame)
    (hc : od.objChains = none ∨ f.chains = od.objChains)
    (hp : od.objPtypes = none ∨ f.ptypes = od.objPtypes) :
    expandFrame od (elideFrame od.objChains od.objPtypes f) = f := by
  obtain ⟨co, pl, ch, pt, sc, pn, rn, cl⟩ := f
  simp only at hc hp
  cases hoc : od.objChains <;> cases hop : od.objPtypes <;>
    simp_all [expandFrame, elideFrame] <;>
    (try cases ch) <;> (try cases pt) <;> simp_all

theorem redundancy_cases (frames : List Frame)
    (get : Frame → Option (List String))
    (hu : (∀ f ∈ frames, get f = none) ∨ (∀ f ∈ frames, get f ≠ none))
    (f : Frame) (hf : f ∈ frames) :
    detectRedundant frames get = none ∨
      get f = detectRedundant frames get := by
  cases hred : detectRedundant frames get with
  | none => exact Or.inl rfl
  | some v =>
      right
      have hspec := detectRedundant_spec frames get v hred f hf
      rcases hu with hu | hu
      · rw [detectRedundant_of_all_none frames get hu] at hred
        exact absurd hred (by simp)
      · rcases hspec with hs | hs
        · exact hs
        · exact absurd hs (hu f hf)

theorem elideFrame_fields (redC redP : Option (List String)) (f : Frame) :
    (elideFrame redC redP f).coords = f.coords ∧
    (elideFrame redC redP f).plddts = f.plddts ∧
    (elideFrame redC redP f).pnames = f.pnames ∧
    (elideFrame redC redP f).rnums = f.rnums := by
  cases redC <;> cases redP <;> simp only [elideFrame] <;>
    first
    | (split_ifs <;> simp_all)
    | simp_all

theorem saveObj_frames1 (o : Obj) (h : ∀ f ∈ o.frames, FrameWF f) :
    o.frames.map saveFrame = o.frames := by
  conv_rhs => rw [← List.map_id o.frames]
  exact List.map_congr_left (fun f hf => saveFrame_id f (h f hf))

theorem saveObj_decomp (o : Obj) (h : ∀ f ∈ o.frames, FrameWF f) :
    (saveObj o).frames = o.frames.map
        (elideFrame (detectRedundant o.frames Frame.chains)
          (detectRedundant o.frames Frame.ptypes)) ∧
      (saveObj o).objChains = detectRedundant o.frames Frame.chains ∧
      (saveObj o).objPtypes = detectRedundant o.frames Frame.ptypes := by
  have h1 := saveObj_frames1 o h
  refine ⟨?_, ?_, ?_⟩ <;> simp [saveObj, h1]

/-- Saving then re-expanding the frames of a well-formed object restores
them exactly. -/
theorem saveObj_frames_expand (o : Obj) (h : ObjWF o) :
    (saveObj o).frames.map (expandFrame (saveObj o)) = o.frames := by
  obtain ⟨-, -, hWF, huc, hup, -, -⟩ := h
  obtain ⟨hfr, hoc, hop⟩ := saveObj_decomp o hWF
  rw [hfr, List.map_map]
  conv_rhs => rw [← List.map_id o.frames]
  apply List.map_congr_left
  intro f hf
  simp only [Function.comp_apply, id_eq]
  rw [← hoc, ← hop]
  refine expand_elideFrame (saveObj o) f ?_ ?_
  · rw [hoc]
    exact redundancy_cases o.frames Frame.chains huc f hf
  · rw [hop]
    exact redundancy_cases o.frames Frame.ptypes hup f hf

/-- The saved frames of a well-formed object are fit for replay. -/
theorem saveObj_frames_loadwf (o : Obj) (h : ObjWF o) :
    ∀ f2 ∈ (saveObj o).frames, LoadWF (saveObj o) f2 := by
  obtain ⟨-, -, hWF, huc, hup, -, -⟩ := h
  obtain ⟨hfr, hoc, hop⟩ := saveObj_decomp o hWF
  intro f2 hf2
  rw [hfr] at hf2
  obtain ⟨f, hf, rfl⟩ := List.mem_map.mp hf2
  obtain ⟨hc0, hround, hpl, hchl, hptl, hpnl, hrnl⟩ := hWF f hf
  have hcc := redundancy_cases o.frames Frame.chains huc f hf
  have hpp := redundancy_cases o.frames Frame.ptypes hup f hf
  have hexp : expandFrame (saveObj o)
      (elideFrame (detectRedundant o.frames Frame.chains)
        (detectRedundant o.frames Frame.ptypes) f) = f := by
    rw [← hoc, ← hop]
    refine expand_elideFrame (saveObj o) f ?_ ?_
    · rw [hoc]
      exact hcc
    · rw [hop]
      exact hpp
  obtain ⟨hco, hpl2, hpn2, hrn2⟩ := elideFrame_fields
    (detectRedundant o.frames Frame.chains)
    (detectRedundant o.frames Frame.ptypes) f
  refine ⟨?_, ?_, ?_, ?_, ?_, ?_, ?_⟩
  · rw [hco]; exact hc0
  · rw [hco, hround]
  · rw [hpl2, hco]; exact hpl
  · intro l hl
    rw [hexp] at hl
    rw [hco]
    exact hchl l hl
  · intro l hl
    rw [hexp] at hl
    rw [hco]
    exact hptl l hl
  · rw [hpn2, hco]; exact hpnl
  · rw [hrn2, hco]; exact hrnl

/-- An object literal used to state intermediate load results. -/
def mkObj (nm : String) (fs : List Frame) (ct : Option (List (List CtVal)))
    (bd : Option (List (ℤ × ℤ))) (r : Option Mat3Q) (c : Option Q3) : Obj :=
  { name := nm, frames := fs, contacts := ct, bonds := bd, color := none,
    rotation := r, center := c }

/-- The empty object dict `new_obj` creates (viewer.py:1146-1155). -/
def freshObj (nm : String) : Obj :=
  { name := nm, frames := [], contacts := none, bonds := none,
    color := none, rotation := none, center := none }

theorem newObj_objects (st : PyState) (nm : Option String) :
    (newObj st nm).objects
      = st.objects ++ [freshObj (nm.getD (toString st.objects.length))] := by
  rw [newObj, sendIncr_objects]
  rfl

theorem newObj_cur (st : PyState) (nm : Option String) :
    (newObj st nm).cur = some st.objects.length := by
  rw [newObj, sendIncr_cur]

/-- Loading one saved well-formed object appends a single object whose
name, frames, contacts and bonds are those of the original. -/
theorem loadObj_spec (g : Geom) (ov : Bool) (st : PyState) (o : Obj)
    (h : ObjWF o) :
    ∃ ob', (loadObj g ov st (saveObj o)).objects = st.objects ++ [ob']
      ∧ objCore ob' = objCore o := by
  obtain ⟨hname, hfrnil, hWF, huc, hup, hcts, hbds⟩ := h
  obtain ⟨hfr, hoc, hop⟩ := saveObj_decomp o hWF
  have hn2 : (saveObj o).name = o.name := by simp [saveObj]
  have hfne : (saveObj o).frames.isEmpty = false := by
    rw [hfr]
    simp [List.isEmpty_iff, hfrnil]
  have hguard : ¬((saveObj o).name = "" ∨ (saveObj o).frames.isEmpty) := by
    rw [hn2, hfne]
    simp [hname]
  have h1o : (newObj st (some (saveObj o).name)).objects
      = st.objects ++ [freshObj (saveObj o).name] := by
    rw [newObj_objects]
    rfl
  have h1c : (newObj st (some (saveObj o).name)).cur
      = some st.objects.length := newObj_cur st _
  obtain ⟨r, c, h2o, h2c⟩ := loadFrames_fold g ov (saveObj o)
    ((saveObj o).frames) (newObj st (some (saveObj o).name)) st.objects
    (freshObj (saveObj o).name) h1o h1c
    (saveObj_frames_loadwf o ⟨hname, hfrnil, hWF, huc, hup, hcts, hbds⟩)
  rw [saveObj_frames_expand o
    ⟨hname, hfrnil, hWF, huc, hup, hcts, hbds⟩] at h2o
  unfold loadObj
  rw [if_neg hguard]
  cases hco : o.contacts with
  | none =>
      have hsc : (saveObj o).contacts = none := by simp [saveObj, hco]
      cases hbo : o.bonds with
      | none =>
          have hsb : (saveObj o).bonds = none := by simp [saveObj, hbo]
          rw [hsc, hsb]
          exact ⟨_, h2o, by simp [objCore, freshObj, hn2, hco, hbo]⟩
      | some lb =>
          have hlb : lb ≠ [] := fun hl => hbds (by rw [hbo, hl])
          have hsb : (saveObj o).bonds = some lb := by
            simp [saveObj, hbo, List.isEmpty_iff, hlb]
          rw [hsc, hsb]
          refine ⟨mkObj o.name o.frames none (some lb) r c, ?_, ?_⟩
          · show modifyLast (List.foldl (loadFrame g ov (saveObj o))
                (newObj st (some (saveObj o).name)) (saveObj o).frames).objects
                (fun ob => { ob with bonds := some lb })
              = _
            rw [h2o, modifyLast_append]
            rfl
          · simp [objCore, mkObj, hco, hbo]
  | some lc =>
      have hlc : lc ≠ [] := fun hl => hcts (by rw [hco, hl])
      have hsc : (saveObj o).contacts = some lc := by
        simp [saveObj, hco, List.isEmpty_iff, hlc]
      cases hbo : o.bonds with
      | none =>
          have hsb : (saveObj o).bonds = none := by simp [saveObj, hbo]
          rw [hsc, hsb]
          refine ⟨mkObj o.name o.frames (some lc) none r c, ?_, ?_⟩
          · show modifyLast (List.foldl (loadFrame g ov (saveObj o))
                (newObj st (some (saveObj o).name)) (saveObj o).frames).objects
                (fun ob => { ob with contacts := some lc })
              = _
            rw [h2o, modifyLast_append]
            rfl
          · simp [objCore, mkObj, hco, hbo]
      | some lb =>
          have hlb : lb ≠ [] := fun hl => hbds (by rw [hbo, hl])
          have hsb : (saveObj o).bonds = some lb := by
            simp [saveObj, hbo, List.isEmpty_iff, hlb]
          rw [hsc, hsb]
          refine ⟨mkObj o.name o.frames (some lc) (some lb) r c, ?_, ?_⟩
          · show modifyLast (modifyLast
                (List.foldl (loadFrame g ov (saveObj o))
                  (newObj st (some (saveObj o).name))
                  (saveObj o).frames).objects
                (fun ob => { ob with contacts := some lc }))
                (fun ob => { ob with bonds := some lb })
              = _
            rw [h2o, modifyLast_append, modifyLast_append]
            rfl
          · simp [objCore, mkObj, hco, hbo]

/-- C8 (amended): for objects as the `add` pipeline produces them (nonempty
names and frames, rounded coordinates, well-sized attributes, uniformly
present-or-absent `chains`/`position_types`, no empty contact/bond lists),
`save_state` followed by `load_state` restores every object's name, frames
(coordinates, pLDDTs, chains, position types, position names, residue
numbers, scatter and frame-level color) and object-level contacts and
bonds; hoisted `chains`/`position_types` are re-expanded onto every frame.
The cached rotation/center are recomputed by `best_view` and the
object-level color is dropped. -/
theorem save_load_restores_objects (g : Geom) (ov : Bool) (s : PyState)
    (objs : List Obj) (h : ∀ o ∈ objs, ObjWF o) :
    (loadState g ov s (saveState objs)).objects.map objCore
      = objs.map objCore := by
  have main : ∀ (l : List Obj) (st : PyState), (∀ o ∈ l, ObjWF o) →
      ((l.map saveObj).foldl (loadObj g ov) st).objects.map objCore
        = st.objects.map objCore ++ l.map objCore := by
    intro l
    induction l with
    | nil =>
        intro st _
        simp
    | cons o os ih =>
        intro st hl
        simp only [List.map_cons, List.foldl_cons]
        obtain ⟨ob', hA, hB⟩ := loadObj_spec g ov st o (hl o (by simp))
        rw [ih (loadObj g ov st (saveObj o))
          (fun o' ho' => hl o' (by simp [ho']))]
        rw [hA]
        simp [hB]
  have h0 := main objs { s with objects := [], cur := none } h
  simpa [loadState, saveState] using h0

/-- A frame at the origin with a pLDDT and a chain label. -/
def wFrameA : Frame :=
  { coords := [(0, 0, 0)], plddts := some [50], chains := some ["A"],
    ptypes := none, scatter := none, pnames := none, rnums := none,
    color := none }

/-- A second frame with the same chain label, so chains get hoisted. -/
def wFrameB : Frame :=
  { coords := [(1, 0, 0)], plddts := some [60], chains := some ["A"],
    ptypes := none, scatter := none, pnames := none, rnums := none,
    color := none }

/-- A well-formed two-frame object with object-level bonds. -/
def wObj : Obj :=
  { name := "W", frames := [wFrameA, wFrameB], contacts := none,
    bonds := some [(0, 1)], color := none, rotation := some idMatQ,
    center := some (0, 0, 0) }

/-- C8 witness: the round-trip theorem applied to `wObj`, whose hoisted
chain labels are re-expanded on load. -/
theorem save_load_witness :
    (loadState simpleGeom false PyState.fresh
        (saveState [wObj])).objects.map objCore = [wObj].map objCore := by
  apply save_load_restores_objects
  intro o ho
  simp only [List.mem_singleton] at ho
  subst ho
  have hfa : FrameWF wFrameA := by
    refine ⟨by simp [wFrameA], ?_, ?_, ?_, ?_, ?_, ?_⟩
    · show [(0, 0, 0)].map roundP2 = [((0 : ℚ), (0 : ℚ), (0 : ℚ))]
      norm_num [roundP2, roundQ2, rhe]
    · intro l hl
      simp only [wFrameA, Option.some.injEq] at hl
      subst hl
      exact ⟨by simp, by simp [wFrameA]⟩
    · intro l hl
      simp only [wFrameA, Option.some.injEq] at hl
      subst hl
      simp [wFrameA]
    · intro l hl
      exact absurd hl (by simp [wFrameA])
    · intro l hl
      exact absurd hl (by simp [wFrameA])
    · intro l hl
      exact absurd hl (by simp [wFrameA])
  have hfb : FrameWF wFrameB := by
    refine ⟨by simp [wFrameB], ?_, ?_, ?_, ?_, ?_, ?_⟩
    · show [(1, 0, 0)].map roundP2 = [((1 : ℚ), (0 : ℚ), (0 : ℚ))]
      norm_num [roundP2, roundQ2, rhe]
    · intro l hl
      simp only [wFrameB, Option.some.injEq] at hl
      subst hl
      exact ⟨by simp, by simp [wFrameB]⟩
    · intro l hl
      simp only [wFrameB, Option.some.injEq] at hl
      subst hl
      simp [wFrameB]
    · intro l hl
      exact absurd hl (by simp [wFrameB])
    · intro l hl
      exact absurd hl (by simp [wFrameB])
    · intro l hl
      exact absurd hl (by simp [wFrameB])
  refine ⟨by simp [wObj], by simp [wObj], ?_, Or.inr ?_, Or.inl ?_,
    by simp [wObj], by simp [wObj]⟩
  · intro f hf
    simp only [wObj, List.mem_cons, List.mem_singleton,
      List.not_mem_nil] at hf
    rcases hf with rfl | rfl | hf
    · exact hfa
    · exact hfb
    · exact absurd hf (by simp)
  · intro f hf
    simp only [wObj, List.mem_cons, List.not_mem_nil] at hf
    rcases hf with rfl | rfl | hf
    · simp [wFrameA]
    · simp [wFrameB]
    · exact absurd hf (by simp)
  · intro f hf
    simp only [wObj, List.mem_cons, List.not_mem_nil] at hf
    rcases hf with rfl | rfl | hf
    · simp [wFrameA]
    · simp [wFrameB]
    · exact absurd hf (by simp)

/-! ## Numeric layer: `best_view`, `kabsch`, `align_a_to_b` over ℝ

The SVD call `np.linalg.svd` is external library code; its output is an
explicit argument (`SVDOut`) constrained by `SVDValid`, the guarantees a
singular value decomposition provides.  All floating-point arithmetic is
modelled exactly over `ℝ`. -/

noncomputable section RealGeometry

/-- A 3-vector. -/
abbrev V3 := Fin 3 → ℝ

/-- A 3x3 real matrix. -/
abbrev Mat3 := Matrix (Fin 3) (Fin 3) ℝ

/-- Euclidean inner product on `V3` (`np.dot`). -/
def dot3 (a b : V3) : ℝ := a 0 * b 0 + a 1 * b 1 + a 2 * b 2

/-- Euclidean norm (`np.linalg.norm`). -/
def norm3 (v : V3) : ℝ := Real.sqrt (dot3 v v)

/-- Cross product (`np.cross`), right-handed. -/
def cross3 (a b : V3) : V3 :=
  ![a 1 * b 2 - a 2 * b 1, a 2 * b 0 - a 0 * b 2, a 0 * b 1 - a 1 * b 0]

/-- The output of `np.linalg.svd` on a 3x3 matrix. -/
structure SVDOut where
  U : Mat3
  S : Fin 3 → ℝ
  Vh : Mat3

/-- What a singular value decomposition of `M` guarantees: orthogonal
factors, the factorization itself, nonnegative singular values. -/
def SVDValid (M : Mat3) (d : SVDOut) : Prop :=
  d.U * Matrix.transpose d.U = 1 ∧ d.Vh * Matrix.transpose d.Vh = 1 ∧
    M = d.U * Matrix.diagonal d.S * d.Vh ∧ (∀ i, 0 ≤ d.S i)

/-- The reflection correction of `kabsch` (viewer.py:196): negate the last
column of `U`. -/
def flipLastCol (U : Mat3) : Mat3 :=
  Matrix.updateColumn U 2 (fun i => -(U i 2))

set_option linter.unusedVariables false in
/-- `kabsch(a, b)` (viewer.py:190-197): the rotation `U·Vh` from the SVD of
`aᵀ·b`, with the reflection correction when its determinant is negative.
The SVD of `aᵀ·b` is the argument `d`; theorems constrain it with
`SVDValid (aᵀ * b) d`. -/
def kabsch (a b : Matrix (Fin m) (Fin 3) ℝ) (d : SVDOut) : Mat3 :=
  let uvh := d.U * d.Vh
  if uvh.det < 0 then flipLastCol d.U * d.Vh else uvh

/-- Column means (`a.mean(axis=-2)`). -/
def colMean (a : Matrix (Fin m) (Fin 3) ℝ) : V3 :=
  fun j => (∑ i, a i j) / m

/-- Centered coordinates (`a - a_mean`). -/
def centered (a : Matrix (Fin m) (Fin 3) ℝ) : Matrix (Fin m) (Fin 3) ℝ :=
  Matrix.of fun i j => a i j - colMean a j

/-- `align_a_to_b` (viewer.py:199-207): center both sets, rotate by the
Kabsch rotation of the centered sets, translate to b's mean. -/
def alignAToB (a b : Matrix (Fin m) (Fin 3) ℝ) (d : SVDOut) :
    Matrix (Fin m) (Fin 3) ℝ :=
  Matrix.of fun i j =>
    (centered a * kabsch (centered a) (centered b) d) i j + colMean b j

/-- The sign values tried by `best_view`'s loops. -/
def signList : List ℝ := [1, -1]

set_option linter.unusedVariables false in
/-- The 16 candidate `(r0, r1)` pairs of `best_view` (viewer.py:142-158):
two axis-to-screen mappings times eight sign combinations (`s3` scales the
third axis `e3`, which the source computes but never uses — it contributes
only iteration count). -/
def bestViewCandidates (v1 v2 v3 : V3) : List (V3 × V3) :=
  [true, false].flatMap fun mapping =>
    signList.flatMap fun s1 =>
      signList.flatMap fun s2 =>
        signList.map fun s3 =>
          let e1 := s1 • v1
          let e2 := s2 • v2
          if mapping then (e1, e2) else (e2, e1)

/-- The normalized screen-X axis `r0` (viewer.py:161). -/
def ocR0 (p : V3 × V3) : V3 := (norm3 p.1)⁻¹ • p.1

/-- The normalized screen-Y axis before orthogonalization (viewer.py:162). -/
def ocR1 (p : V3 × V3) : V3 := (norm3 p.2)⁻¹ • p.2

/-- The screen-Y axis orthogonalized against `r0` (viewer.py:165). -/
def ocR1o (p : V3 × V3) : V3 := ocR1 p - dot3 (ocR1 p) (ocR0 p) • ocR0 p

/-- The re-normalized orthogonalized screen-Y axis (viewer.py:169). -/
def ocR1n (p : V3 × V3) : V3 := (norm3 (ocR1o p))⁻¹ • ocR1o p

/-- Candidate construction (viewer.py:160-175): normalize both axes,
orthogonalize the screen-Y axis against screen-X, skip the candidate when
the orthogonalized axis has near-zero norm, complete with the cross
product. -/
def orthoCandidate (p : V3 × V3) : Option Mat3 :=
  if norm3 (ocR1o p) < 1e-10 then none
  else some (Matrix.of ![ocR0 p, ocR1n p, cross3 (ocR0 p) (ocR1n p)])

/-- `np.var` of the projection of the centered coordinates on an axis. -/
def varAlong (c : Matrix (Fin n) (Fin 3) ℝ) (r : V3) : ℝ :=
  (∑ i, (∑ k, c i k * r k) ^ 2) / n - ((∑ i, ∑ k, c i k * r k) / n) ^ 2

/-- One iteration of `best_view`'s candidate loop (viewer.py:160-186). -/
def bvStep (c : Matrix (Fin n) (Fin 3) ℝ) (acc : ℝ × Mat3)
    (p : V3 × V3) : ℝ × Mat3 :=
  match orthoCandidate p with
  | none => acc
  | some R =>
      let vx := varAlong c (fun k => R 0 k)
      let vy := varAlong c (fun k => R 1 k)
      let ratio := max vx vy / (min vx vy + 1e-10)
      if acc.1 < ratio then (ratio, R) else acc

/-- `best_view` (viewer.py:108-188): center is the coordinate mean; the
rotation is the best-scoring candidate built from the SVD axes `v1 v2 v3`
(the columns of `U` from `np.linalg.svd` of the covariance), falling back
to the identity when every candidate is skipped. -/
def bestView (coords : Matrix (Fin n) (Fin 3) ℝ) (v1 v2 v3 : V3) :
    Mat3 × V3 :=
  (((bestViewCandidates v1 v2 v3).foldl (bvStep (centered coords))
      (-1, 1)).2,
   colMean coords)

/-! ### Basic vector lemmas -/

lemma dot3_self_nonneg (v : V3) : 0 ≤ dot3 v v := by
  unfold dot3
  nlinarith [mul_self_nonneg (v 0), mul_self_nonneg (v 1), mul_self_nonneg (v 2)]

lemma dot3_eq_one_of_norm3 (v : V3) (hv : norm3 v = 1) : dot3 v v = 1 := by
  unfold norm3 at hv
  calc dot3 v v = Real.sqrt (dot3 v v) ^ 2 := (Real.sq_sqrt (dot3_self_nonneg v)).symm
    _ = 1 := by rw [hv] ; norm_num

lemma dot3_smul_smul (a b : ℝ) (u w : V3) :
    dot3 (a • u) (b • w) = a * b * dot3 u w := by
  simp only [dot3, Pi.smul_apply, smul_eq_mul]
  ring

lemma norm3_zero : norm3 (0 : V3) = 0 := by
  simp [norm3, dot3]

lemma norm3_eq_one_of_dot3 (v : V3) (h : dot3 v v = 1) : norm3 v = 1 := by
  rw [norm3, h, Real.sqrt_one]

lemma norm3_smul_of_sq (s : ℝ) (v : V3) (hs : s * s = 1) (hv : norm3 v = 1) :
    norm3 (s • v) = 1 := by
  apply norm3_eq_one_of_dot3
  rw [dot3_smul_smul, dot3_eq_one_of_norm3 v hv, hs, mul_one]

lemma orthoCandidate_parallel (s t : ℝ) (v : V3) (hs : s * s = 1)
    (ht : t * t = 1) (hv : norm3 v = 1) :
    orthoCandidate (s • v, t • v) = none := by
  have hz : ocR1o (s • v, t • v) = 0 := by
    funext x
    simp only [ocR1o, ocR1, ocR0, norm3_smul_of_sq s v hs hv,
      norm3_smul_of_sq t v ht hv, inv_one, one_smul, dot3_smul_smul,
      dot3_eq_one_of_norm3 v hv, mul_one, Pi.sub_apply, Pi.smul_apply,
      smul_eq_mul, Pi.zero_apply]
    linear_combination (-(t * v x)) * hs
  unfold orthoCandidate
  rw [hz, norm3_zero, if_pos (by norm_num)]
/-! ### Orthonormal rows with a cross-product third row form SO(3) -/

lemma rowMat_orth (a b : V3) (ha : dot3 a a = 1) (hb : dot3 b b = 1)
    (hab : dot3 a b = 0) :
    (Matrix.of ![a, b, cross3 a b]) * Matrix.transpose (Matrix.of ![a, b, cross3 a b]) = 1 := by
  unfold dot3 at ha hb hab
  have hc1 : a 0 * cross3 a b 0 + a 1 * cross3 a b 1 + a 2 * cross3 a b 2 = 0 := by
    simp only [cross3, Matrix.cons_val_zero, Matrix.cons_val_one, Matrix.head_cons,
      Matrix.cons_val_two, Matrix.tail_cons]
    ring
  have hc2 : b 0 * cross3 a b 0 + b 1 * cross3 a b 1 + b 2 * cross3 a b 2 = 0 := by
    simp only [cross3, Matrix.cons_val_zero, Matrix.cons_val_one, Matrix.head_cons,
      Matrix.cons_val_two, Matrix.tail_cons]
    ring
  have hc3 : cross3 a b 0 * cross3 a b 0 + cross3 a b 1 * cross3 a b 1 +
      cross3 a b 2 * cross3 a b 2 = 1 := by
    simp only [cross3, Matrix.cons_val_zero, Matrix.cons_val_one, Matrix.head_cons,
      Matrix.cons_val_two, Matrix.tail_cons]
    linear_combination (b 0 * b 0 + b 1 * b 1 + b 2 * b 2) * ha + hb -
      (a 0 * b 0 + a 1 * b 1 + a 2 * b 2) * hab
  ext i j
  rw [Matrix.mul_apply, Fin.sum_univ_three]
  fin_cases i <;> fin_cases j <;>
    simp [Matrix.transpose_apply, Matrix.one_apply] <;>
    first
      | exact ha
      | exact hb
      | exact hab
      | exact hc1
      | exact hc2
      | exact hc3
      | linear_combination hab
      | linear_combination hc1
      | linear_combination hc2

lemma rowMat_det (a b : V3) (ha : dot3 a a = 1) (hb : dot3 b b = 1)
    (hab : dot3 a b = 0) :
    (Matrix.of ![a, b, cross3 a b]).det = 1 := by
  unfold dot3 at ha hb hab
  rw [Matrix.det_fin_three]
  simp only [Matrix.of_apply, Matrix.cons_val_zero, Matrix.cons_val_one,
    Matrix.head_cons, Matrix.cons_val_two, Matrix.tail_cons, cross3]
  linear_combination (b 0 * b 0 + b 1 * b 1 + b 2 * b 2) * ha + hb -
    (a 0 * b 0 + a 1 * b 1 + a 2 * b 2) * hab
/-! ### Every candidate `orthoCandidate` accepts is a proper rotation -/

lemma dot3_comm (u w : V3) : dot3 u w = dot3 w u := by
  unfold dot3 ; ring

lemma dot3_smul_left (c : ℝ) (u w : V3) : dot3 (c • u) w = c * dot3 u w := by
  simp only [dot3, Pi.smul_apply, smul_eq_mul] ; ring

lemma dot3_sub_left (u v w : V3) : dot3 (u - v) w = dot3 u w - dot3 v w := by
  simp only [dot3, Pi.sub_apply] ; ring

lemma dot3_pos_of_norm3_pos (v : V3) (h : 0 < norm3 v) : 0 < dot3 v v :=
  Real.sqrt_pos.mp h

lemma dot3_normalize (v : V3) (h : 0 < dot3 v v) :
    dot3 ((norm3 v)⁻¹ • v) ((norm3 v)⁻¹ • v) = 1 := by
  rw [dot3_smul_smul]
  have hs : Real.sqrt (dot3 v v) ^ 2 = dot3 v v := Real.sq_sqrt (le_of_lt h)
  have hne : Real.sqrt (dot3 v v) ≠ 0 := by positivity
  unfold norm3
  field_simp

lemma orthoCandidate_proper (p : V3 × V3) (h1 : norm3 p.1 = 1) (R : Mat3)
    (h : orthoCandidate p = some R) :
    R * Matrix.transpose R = 1 ∧ R.det = 1 := by
  unfold orthoCandidate at h
  by_cases hg : norm3 (ocR1o p) < 1e-10
  · rw [if_pos hg] at h ; exact absurd h (by simp)
  · rw [if_neg hg] at h
    have hR : R = Matrix.of ![ocR0 p, ocR1n p, cross3 (ocR0 p) (ocR1n p)] :=
      (Option.some.injEq _ _ ▸ h).symm
    have hr0 : ocR0 p = p.1 := by rw [ocR0, h1, inv_one, one_smul]
    have ha : dot3 (ocR0 p) (ocR0 p) = 1 := by
      rw [hr0] ; exact dot3_eq_one_of_norm3 p.1 h1
    have hpos : 0 < dot3 (ocR1o p) (ocR1o p) := by
      apply dot3_pos_of_norm3_pos
      have : (0 : ℝ) < 1e-10 := by norm_num
      linarith [not_lt.mp hg]
    have hb : dot3 (ocR1n p) (ocR1n p) = 1 := dot3_normalize _ hpos
    have hortho : dot3 (ocR1o p) (ocR0 p) = 0 := by
      rw [ocR1o, dot3_sub_left, dot3_smul_left, ha, mul_one, sub_self]
    have hab : dot3 (ocR0 p) (ocR1n p) = 0 := by
      rw [dot3_comm, ocR1n, dot3_smul_left, hortho, mul_zero]
    rw [hR]
    exact ⟨rowMat_orth _ _ ha hb hab, rowMat_det _ _ ha hb hab⟩
/-! ### The candidate fold preserves properness -/

lemma bvFold_proper {n : ℕ} (c : Matrix (Fin n) (Fin 3) ℝ) :
    ∀ (l : List (V3 × V3)) (acc : ℝ × Mat3),
      (∀ p ∈ l, ∀ R, orthoCandidate p = some R →
        R * Matrix.transpose R = 1 ∧ R.det = 1) →
      acc.2 * Matrix.transpose acc.2 = 1 ∧ acc.2.det = 1 →
      (l.foldl (bvStep c) acc).2 * Matrix.transpose (l.foldl (bvStep c) acc).2 = 1 ∧
        (l.foldl (bvStep c) acc).2.det = 1 := by
  intro l
  induction l with
  | nil => intro acc _ hacc ; simpa using hacc
  | cons p l ih =>
      intro acc hl hacc
      rw [List.foldl_cons]
      apply ih
      · intro q hq ; exact hl q (List.mem_cons_of_mem p hq)
      · rcases hc : orthoCandidate p with _ | R
        · simpa [bvStep, hc] using hacc
        · have hprop := hl p (List.mem_cons_self p l) R hc
          simp only [bvStep, hc]
          split_ifs
          · exact hprop
          · exact hacc

lemma norm3_neg_one_smul (v : V3) (hv : norm3 v = 1) : norm3 ((-1 : ℝ) • v) = 1 :=
  norm3_smul_of_sq (-1) v (by norm_num) hv

lemma norm3_one_smul (v : V3) (hv : norm3 v = 1) : norm3 ((1 : ℝ) • v) = 1 :=
  norm3_smul_of_sq 1 v (by norm_num) hv

lemma bestViewCandidates_fst_norm (v1 v2 v3 : V3) (h1 : norm3 v1 = 1)
    (h2 : norm3 v2 = 1) :
    ∀ p ∈ bestViewCandidates v1 v2 v3, norm3 p.1 = 1 := by
  intro p hp
  simp only [bestViewCandidates, signList, List.flatMap_cons, List.flatMap_nil,
    List.map_cons, List.map_nil, List.append_nil, List.mem_append,
    List.mem_cons, List.not_mem_nil, or_false, if_true, if_false,
    Bool.false_eq_true, reduceIte] at hp
  casesm* _ ∨ _ <;> rename_i h <;> subst h <;>
    first
      | exact norm3_one_smul v1 h1
      | exact norm3_neg_one_smul v1 h1
      | exact norm3_one_smul v2 h2
      | exact norm3_neg_one_smul v2 h2
/-! ### kabsch produces a proper rotation -/

lemma orth_mul {A B : Mat3} (hA : A * Matrix.transpose A = 1)
    (hB : B * Matrix.transpose B = 1) :
    (A * B) * Matrix.transpose (A * B) = 1 := by
  rw [Matrix.transpose_mul, Matrix.mul_assoc, ← Matrix.mul_assoc B, hB,
    Matrix.one_mul, hA]

/-- The sign pattern of the reflection correction. -/
def flipSigns : Fin 3 → ℝ := ![1, 1, -1]

lemma flipLastCol_eq (U : Mat3) :
    flipLastCol U = U * Matrix.diagonal flipSigns := by
  ext i j
  rw [Matrix.mul_diagonal, flipLastCol, Matrix.updateColumn_apply]
  fin_cases j <;> simp [flipSigns]

lemma flipSigns_orth :
    Matrix.diagonal flipSigns * Matrix.transpose (Matrix.diagonal flipSigns) = 1 := by
  rw [Matrix.diagonal_transpose, Matrix.diagonal_mul_diagonal]
  ext i j
  fin_cases i <;> fin_cases j <;> simp [Matrix.diagonal, flipSigns, Matrix.one_apply]

lemma flipSigns_det : (Matrix.diagonal flipSigns).det = -1 := by
  rw [Matrix.det_diagonal, Fin.prod_univ_three]
  norm_num [flipSigns]

lemma det_mul_self_one {A : Mat3} (hA : A * Matrix.transpose A = 1) :
    A.det * A.det = 1 := by
  have := congrArg Matrix.det hA
  rwa [Matrix.det_mul, Matrix.det_transpose, Matrix.det_one] at this

lemma kabsch_proper {m : ℕ} (a b : Matrix (Fin m) (Fin 3) ℝ) (d : SVDOut)
    (hd : SVDValid (Matrix.transpose a * b) d) :
    kabsch a b d * Matrix.transpose (kabsch a b d) = 1 ∧ (kabsch a b d).det = 1 := by
  obtain ⟨hU, hV, _, _⟩ := hd
  have horth : (d.U * d.Vh) * Matrix.transpose (d.U * d.Vh) = 1 := orth_mul hU hV
  have hdet2 : (d.U * d.Vh).det * (d.U * d.Vh).det = 1 := det_mul_self_one horth
  by_cases hneg : (d.U * d.Vh).det < 0
  · have hdet : (d.U * d.Vh).det = -1 := by
      rcases mul_self_eq_one_iff.mp hdet2 with h | h
      · linarith [hneg, h.ge]
      · exact h
    have hflip : flipLastCol d.U * d.Vh =
        d.U * Matrix.diagonal flipSigns * d.Vh := by rw [flipLastCol_eq]
    constructor
    · simp only [kabsch]
      rw [if_pos hneg, hflip]
      exact orth_mul (orth_mul hU flipSigns_orth) hV
    · simp only [kabsch]
      rw [if_pos hneg, hflip, Matrix.det_mul, Matrix.det_mul, flipSigns_det]
      have hm : d.U.det * d.Vh.det = -1 := by rw [← Matrix.det_mul] ; exact hdet
      nlinarith [hm]
  · have hdet : (d.U * d.Vh).det = 1 := by
      rcases mul_self_eq_one_iff.mp hdet2 with h | h
      · exact h
      · push_neg at hneg ; rw [h] at hneg ; linarith
    simp only [kabsch]
    rw [if_neg hneg]
    exact ⟨horth, hdet⟩
/-! ### Columns of an orthogonal 3x3 matrix are unit vectors -/

lemma col_unit {U : Mat3} (hU : U * Matrix.transpose U = 1) (j : Fin 3) :
    norm3 (fun i => U i j) = 1 := by
  have hU2 : Matrix.transpose U * U = 1 := Matrix.mul_eq_one_comm.mp hU
  have h := congrArg (fun M : Mat3 => M j j) hU2
  simp only [Matrix.mul_apply, Matrix.transpose_apply, Matrix.one_apply_eq,
    Fin.sum_univ_three] at h
  apply norm3_eq_one_of_dot3
  unfold dot3
  exact h

/-- C2: the rotation returned by kabsch (for any SVD of aᵀ·b satisfying the
SVD guarantees) and the rotation returned by best_view (fed the principal
axes, i.e. the columns of the U factor of any valid SVD of the covariance
of the centered coordinates) are proper rotations: orthogonal with
determinant exactly +1 in exact arithmetic. -/
theorem rotation_properness :
    (∀ (m : ℕ) (a b : Matrix (Fin m) (Fin 3) ℝ) (d : SVDOut),
        SVDValid (Matrix.transpose a * b) d →
        kabsch a b d * Matrix.transpose (kabsch a b d) = 1 ∧
          (kabsch a b d).det = 1) ∧
    (∀ (n : ℕ) (coords : Matrix (Fin n) (Fin 3) ℝ) (d : SVDOut),
        SVDValid (Matrix.transpose (centered coords) * centered coords) d →
        (bestView coords (fun i => d.U i 0) (fun i => d.U i 1)
              (fun i => d.U i 2)).1 *
            Matrix.transpose ((bestView coords (fun i => d.U i 0)
              (fun i => d.U i 1) (fun i => d.U i 2)).1) = 1 ∧
          ((bestView coords (fun i => d.U i 0) (fun i => d.U i 1)
              (fun i => d.U i 2)).1).det = 1) := by
  constructor
  · intro m a b d hd
    exact kabsch_proper a b d hd
  · intro n coords d hd
    obtain ⟨hU, _, _, _⟩ := hd
    have h1 : norm3 (fun i => d.U i 0) = 1 := col_unit hU 0
    have h2 : norm3 (fun i => d.U i 1) = 1 := col_unit hU 1
    simp only [bestView]
    apply bvFold_proper
    · intro p hp R hR
      exact orthoCandidate_proper p
        (bestViewCandidates_fst_norm _ _ _ h1 h2 p hp) R hR
    · constructor
      · rw [Matrix.transpose_one, Matrix.one_mul]
      · exact Matrix.det_one

/-- Witness inputs for the properness theorem: the identity SVD of the
identity covariance, and the trivial SVD of the zero covariance of a
single zero point. -/
def wSVD1 : SVDOut := ⟨1, 1, 1⟩

def wSVD0 : SVDOut := ⟨1, 0, 1⟩

def wZero : Matrix (Fin 1) (Fin 3) ℝ := 0

/-- C2 witness: the theorem applied at concrete inputs. -/
theorem rotation_properness_witness :
    (SVDValid (Matrix.transpose (1 : Mat3) * 1) wSVD1 ∧
      SVDValid (Matrix.transpose (centered wZero) * centered wZero) wSVD0) ∧
    (kabsch (1 : Mat3) 1 wSVD1 *
        Matrix.transpose (kabsch (1 : Mat3) 1 wSVD1) = 1 ∧
      (kabsch (1 : Mat3) 1 wSVD1).det = 1) ∧
    ((bestView wZero (fun i => wSVD0.U i 0) (fun i => wSVD0.U i 1)
          (fun i => wSVD0.U i 2)).1 *
        Matrix.transpose ((bestView wZero (fun i => wSVD0.U i 0)
          (fun i => wSVD0.U i 1) (fun i => wSVD0.U i 2)).1) = 1 ∧
      ((bestView wZero (fun i => wSVD0.U i 0) (fun i => wSVD0.U i 1)
          (fun i => wSVD0.U i 2)).1).det = 1) := by
  have hd1 : SVDValid (Matrix.transpose (1 : Mat3) * 1) wSVD1 := by
    unfold SVDValid wSVD1
    refine ⟨by simp, by simp, ?_, by intro i ; norm_num⟩
    show Matrix.transpose 1 * 1 = 1 * Matrix.diagonal 1 * 1
    rw [show Matrix.diagonal (1 : Fin 3 → ℝ) = 1 from Matrix.diagonal_one]
    simp
  have hc : centered wZero = 0 := by
    ext i j
    simp [centered, colMean, wZero]
  have hd0 : SVDValid (Matrix.transpose (centered wZero) * centered wZero) wSVD0 := by
    unfold SVDValid wSVD0
    refine ⟨by simp, by simp, ?_, by intro i ; norm_num⟩
    show Matrix.transpose (centered wZero) * centered wZero = 1 * Matrix.diagonal 0 * 1
    rw [show Matrix.diagonal (0 : Fin 3 → ℝ) = 0 from Matrix.diagonal_zero]
    simp [hc]
  exact ⟨⟨hd1, hd0⟩, rotation_properness.1 3 1 1 wSVD1 hd1,
    rotation_properness.2 1 wZero wSVD0 hd0⟩
/-! ### Alignment idempotence -/

/-- C3: aligning a coordinate set to itself is the identity: for any SVD of
the (symmetric, positive semidefinite) self-covariance whose right factor
is the transpose of the left — the form `np.linalg.svd` returns for such
matrices — the recovered kabsch rotation is exactly the identity matrix and
`align_a_to_b(a, a)` returns `a` unchanged. -/
theorem alignment_idempotence (m : ℕ) (a : Matrix (Fin m) (Fin 3) ℝ)
    (d : SVDOut)
    (hd : SVDValid (Matrix.transpose (centered a) * centered a) d)
    (hVh : d.Vh = Matrix.transpose d.U) :
    kabsch (centered a) (centered a) d = 1 ∧ alignAToB a a d = a := by
  obtain ⟨hU, _, _, _⟩ := hd
  have huv : d.U * d.Vh = 1 := by rw [hVh] ; exact hU
  have hk : kabsch (centered a) (centered a) d = 1 := by
    simp only [kabsch]
    rw [huv, Matrix.det_one, if_neg (by norm_num : ¬(1 : ℝ) < 0)]
  refine ⟨hk, ?_⟩
  ext i j
  simp only [alignAToB, Matrix.of_apply]
  rw [hk, Matrix.mul_one]
  simp only [centered, Matrix.of_apply]
  ring

/-- C3 witness: a single point at the origin, with the trivial SVD of its
zero self-covariance. -/
theorem alignment_idempotence_witness :
    (SVDValid (Matrix.transpose (centered (0 : Matrix (Fin 1) (Fin 3) ℝ)) *
        centered (0 : Matrix (Fin 1) (Fin 3) ℝ)) ⟨1, 0, 1⟩ ∧
      SVDOut.Vh ⟨1, 0, 1⟩ = Matrix.transpose (SVDOut.U ⟨1, 0, 1⟩)) ∧
    (kabsch (centered (0 : Matrix (Fin 1) (Fin 3) ℝ))
        (centered (0 : Matrix (Fin 1) (Fin 3) ℝ)) ⟨1, 0, 1⟩ = 1 ∧
      alignAToB (0 : Matrix (Fin 1) (Fin 3) ℝ)
        (0 : Matrix (Fin 1) (Fin 3) ℝ) ⟨1, 0, 1⟩ = 0) := by
  have hc : centered (0 : Matrix (Fin 1) (Fin 3) ℝ) = 0 := by
    ext i j
    simp [centered, colMean]
  have hd : SVDValid (Matrix.transpose (centered (0 : Matrix (Fin 1) (Fin 3) ℝ)) *
      centered (0 : Matrix (Fin 1) (Fin 3) ℝ)) ⟨1, 0, 1⟩ := by
    unfold SVDValid
    refine ⟨by simp, by simp, ?_, by intro i ; norm_num⟩
    show Matrix.transpose (centered (0 : Matrix (Fin 1) (Fin 3) ℝ)) *
      centered (0 : Matrix (Fin 1) (Fin 3) ℝ) = 1 * Matrix.diagonal 0 * 1
    rw [show Matrix.diagonal (0 : Fin 3 → ℝ) = 0 from Matrix.diagonal_zero]
    simp [hc]
  have hVh : SVDOut.Vh ⟨1, 0, 1⟩ = Matrix.transpose (SVDOut.U ⟨1, 0, 1⟩) := by
    show (1 : Mat3) = Matrix.transpose 1
    rw [Matrix.transpose_one]
  exact ⟨⟨hd, hVh⟩, alignment_idempotence 1 0 ⟨1, 0, 1⟩ hd hVh⟩
/-! ### Degenerate best_view falls back to the identity -/

lemma foldl_bvStep_all_skipped {n : ℕ} (c : Matrix (Fin n) (Fin 3) ℝ) :
    ∀ (l : List (V3 × V3)) (acc : ℝ × Mat3),
      (∀ p ∈ l, orthoCandidate p = none) →
      l.foldl (bvStep c) acc = acc := by
  intro l
  induction l with
  | nil => intro acc _ ; rfl
  | cons p l ih =>
      intro acc hl
      rw [List.foldl_cons]
      have hp : orthoCandidate p = none := hl p (List.mem_cons_self p l)
      have hstep : bvStep c acc p = acc := by simp [bvStep, hp]
      rw [hstep]
      exact ih acc (fun q hq => hl q (List.mem_cons_of_mem p hq))

/-- C6: when every one of the 16 best_view candidates is skipped because
its orthogonalized screen-Y axis has near-zero norm (as happens for
zero-variance or collinear coordinates, whose principal axes collapse),
best_view returns the identity rotation and the coordinate mean as
center. -/
theorem degenerate_best_view_identity (n : ℕ)
    (coords : Matrix (Fin n) (Fin 3) ℝ) (v1 v2 v3 : V3)
    (hall : ∀ p ∈ bestViewCandidates v1 v2 v3, orthoCandidate p = none) :
    bestView coords v1 v2 v3 = (1, colMean coords) := by
  unfold bestView
  rw [foldl_bvStep_all_skipped (centered coords) _ _ hall]

/-- The collapsed principal axis used by the degenerate witness. -/
def wAxis : V3 := ![1, 0, 0]

lemma norm3_wAxis : norm3 wAxis = 1 := by
  apply norm3_eq_one_of_dot3
  simp [dot3, wAxis]

/-- C6 witness: collinear geometry — all three principal axes equal — makes
every candidate degenerate, and best_view returns the identity. -/
theorem degenerate_best_view_witness :
    (∀ p ∈ bestViewCandidates wAxis wAxis wAxis, orthoCandidate p = none) ∧
    bestView (0 : Matrix (Fin 1) (Fin 3) ℝ) wAxis wAxis wAxis =
      (1, colMean (0 : Matrix (Fin 1) (Fin 3) ℝ)) := by
  have hall : ∀ p ∈ bestViewCandidates wAxis wAxis wAxis,
      orthoCandidate p = none := by
    intro p hp
    simp only [bestViewCandidates, signList, List.flatMap_cons, List.flatMap_nil,
      List.map_cons, List.map_nil, List.append_nil, List.mem_append,
      List.mem_cons, List.not_mem_nil, or_false, if_true, if_false,
      Bool.false_eq_true, reduceIte] at hp
    casesm* _ ∨ _ <;> rename_i h <;> subst h <;>
      (apply orthoCandidate_parallel <;> first | exact norm3_wAxis | norm_num)
  exact ⟨hall, degenerate_best_view_identity 1 0 wAxis wAxis wAxis hall⟩

end RealGeometry

end Py2Dmol
